import Mathlib

/-!
Verification of the football-ai aggregation core
(`backend/app/services/{espn_service,sleeper_service,hybrid_service}.py`).

The Python services are shallowly embedded: JSON/dict values become the
inductive type `Val`, upstream HTTP fetches become a `FetchEnv` giving each
fetchable resource an outcome (`Except` failure or a payload), the mutable
per-service caches become explicit state records, and every service method is
a pure function from environment, state and arguments to a result, the new
state and a log of the fetches it attempted.  Python statements that can raise
are modelled in `Except PyErr`; a `try .. except` block of the source appears
as a `match` on the embedded body with the handler in the error branch.
-/

set_option maxHeartbeats 1000000

namespace FootballAI

/-- A Python/JSON value as manipulated by the services. -/
inductive Val where
  | vnull : Val
  | vbool : Bool → Val
  | vnum : Int → Val
  | vstr : String → Val
  | vlist : List Val → Val
  | vdict : List (String × Val) → Val

mutual

/-- Decidable equality on values. -/
def Val.decEq : (a b : Val) → Decidable (a = b)
  | .vnull, .vnull => .isTrue rfl
  | .vbool a, .vbool b =>
    match decEq a b with
    | .isTrue h => .isTrue (by rw [h])
    | .isFalse h => .isFalse (fun hh => h (by cases hh; rfl))
  | .vnum a, .vnum b =>
    match decEq a b with
    | .isTrue h => .isTrue (by rw [h])
    | .isFalse h => .isFalse (fun hh => h (by cases hh; rfl))
  | .vstr a, .vstr b =>
    match decEq a b with
    | .isTrue h => .isTrue (by rw [h])
    | .isFalse h => .isFalse (fun hh => h (by cases hh; rfl))
  | .vlist a, .vlist b =>
    match decEqValList a b with
    | .isTrue h => .isTrue (by rw [h])
    | .isFalse h => .isFalse (fun hh => h (by cases hh; rfl))
  | .vdict a, .vdict b =>
    match decEqValDict a b with
    | .isTrue h => .isTrue (by rw [h])
    | .isFalse h => .isFalse (fun hh => h (by cases hh; rfl))
  | .vnull, .vbool _ => .isFalse (fun h => Val.noConfusion h)
  | .vnull, .vnum _ => .isFalse (fun h => Val.noConfusion h)
  | .vnull, .vstr _ => .isFalse (fun h => Val.noConfusion h)
  | .vnull, .vlist _ => .isFalse (fun h => Val.noConfusion h)
  | .vnull, .vdict _ => .isFalse (fun h => Val.noConfusion h)
  | .vbool _, .vnull => .isFalse (fun h => Val.noConfusion h)
  | .vbool _, .vnum _ => .isFalse (fun h => Val.noConfusion h)
  | .vbool _, .vstr _ => .isFalse (fun h => Val.noConfusion h)
  | .vbool _, .vlist _ => .isFalse (fun h => Val.noConfusion h)
  | .vbool _, .vdict _ => .isFalse (fun h => Val.noConfusion h)
  | .vnum _, .vnull => .isFalse (fun h => Val.noConfusion h)
  | .vnum _, .vbool _ => .isFalse (fun h => Val.noConfusion h)
  | .vnum _, .vstr _ => .isFalse (fun h => Val.noConfusion h)
  | .vnum _, .vlist _ => .isFalse (fun h => Val.noConfusion h)
  | .vnum _, .vdict _ => .isFalse (fun h => Val.noConfusion h)
  | .vstr _, .vnull => .isFalse (fun h => Val.noConfusion h)
  | .vstr _, .vbool _ => .isFalse (fun h => Val.noConfusion h)
  | .vstr _, .vnum _ => .isFalse (fun h => Val.noConfusion h)
  | .vstr _, .vlist _ => .isFalse (fun h => Val.noConfusion h)
  | .vstr _, .vdict _ => .isFalse (fun h => Val.noConfusion h)
  | .vlist _, .vnull => .isFalse (fun h => Val.noConfusion h)
  | .vlist _, .vbool _ => .isFalse (fun h => Val.noConfusion h)
  | .vlist _, .vnum _ => .isFalse (fun h => Val.noConfusion h)
  | .vlist _, .vstr _ => .isFalse (fun h => Val.noConfusion h)
  | .vlist _, .vdict _ => .isFalse (fun h => Val.noConfusion h)
  | .vdict _, .vnull => .isFalse (fun h => Val.noConfusion h)
  | .vdict _, .vbool _ => .isFalse (fun h => Val.noConfusion h)
  | .vdict _, .vnum _ => .isFalse (fun h => Val.noConfusion h)
  | .vdict _, .vstr _ => .isFalse (fun h => Val.noConfusion h)
  | .vdict _, .vlist _ => .isFalse (fun h => Val.noConfusion h)

/-- Decidable equality on lists of values. -/
def decEqValList : (a b : List Val) → Decidable (a = b)
  | [], [] => .isTrue rfl
  | [], _ :: _ => .isFalse (fun h => List.noConfusion h)
  | _ :: _, [] => .isFalse (fun h => List.noConfusion h)
  | x :: xs, y :: ys =>
    match Val.decEq x y with
    | .isTrue h1 =>
      match decEqValList xs ys with
      | .isTrue h2 => .isTrue (by rw [h1, h2])
      | .isFalse h2 => .isFalse (fun hh => h2 (by cases hh; rfl))
    | .isFalse h1 => .isFalse (fun hh => h1 (by cases hh; rfl))

/-- Decidable equality on dict entry lists. -/
def decEqValDict : (a b : List (String × Val)) → Decidable (a = b)
  | [], [] => .isTrue rfl
  | [], _ :: _ => .isFalse (fun h => List.noConfusion h)
  | _ :: _, [] => .isFalse (fun h => List.noConfusion h)
  | (k1, v1) :: xs, (k2, v2) :: ys =>
    match decEq k1 k2 with
    | .isTrue hk =>
      match Val.decEq v1 v2 with
      | .isTrue hv =>
        match decEqValDict xs ys with
        | .isTrue h2 => .isTrue (by rw [hk, hv, h2])
        | .isFalse h2 => .isFalse (fun hh => h2 (by cases hh; rfl))
      | .isFalse hv => .isFalse (fun hh => hv (by cases hh; rfl))
    | .isFalse hk => .isFalse (fun hh => hk (by cases hh; rfl))

end

instance : DecidableEq Val := Val.decEq

/-- A Python exception, abstracted to the kinds the services can raise. -/
inductive PyErr where
  | attrError : PyErr
  | typeError : PyErr
  | keyError : PyErr
  | fetchError : PyErr
  deriving DecidableEq

/-- Python truthiness of a value. -/
def Val.truthy : Val → Bool
  | .vnull => false
  | .vbool b => b
  | .vnum n => n != 0
  | .vstr s => s ≠ ""
  | .vlist l => !l.isEmpty
  | .vdict d => !d.isEmpty

/-- Whether the value is a dict (Python isinstance(x, dict)). -/
def Val.isDict : Val → Bool
  | .vdict _ => true
  | _ => false

/-- Whether the value may be used as a Python dict key (hashable). -/
def Val.hashable : Val → Bool
  | .vlist _ => false
  | .vdict _ => false
  | _ => true

/-- Membership test used by the model for dict-key lookup. -/
def dlookup (d : List (String × Val)) (k : String) : Option Val :=
  match d with
  | [] => none
  | (k', v) :: rest => if k' = k then some v else dlookup rest k

/-- Python dict assignment d[k] = v: replaces in place or appends. -/
def dset (d : List (String × Val)) (k : String) (v : Val) : List (String × Val) :=
  match d with
  | [] => [(k, v)]
  | (k', v') :: rest => if k' = k then (k, v) :: rest else (k', v') :: dset rest k v

/-- Python x.get(k, dflt): attribute lookup raises on non-dict receivers. -/
def pyGetD (x : Val) (k : String) (dflt : Val) : Except PyErr Val :=
  match x with
  | .vdict d => .ok ((dlookup d k).getD dflt)
  | _ => .error .attrError

/-- Total .get for receivers statically known to be dicts. -/
def lookupD (d : List (String × Val)) (k : String) (dflt : Val) : Val :=
  (dlookup d k).getD dflt

/-- Python s.lower(), mapping each character (executable by kernel reduction). -/
def strLower (s : String) : String := String.mk (s.data.map Char.toLower)

/-- Python s.upper(). -/
def strUpper (s : String) : String := String.mk (s.data.map Char.toUpper)

/-- Python s.strip(): drop leading and trailing whitespace. -/
def strTrim (s : String) : String :=
  String.mk (((s.data.dropWhile Char.isWhitespace).reverse.dropWhile Char.isWhitespace).reverse)

/-- Infix test on character lists: the needle occurs contiguously in the hay. -/
def charsInfixOf (needle : List Char) : List Char → Bool
  | [] => needle.isEmpty
  | c :: rest => needle.isPrefixOf (c :: rest) || charsInfixOf needle rest

/-- Python substring test a in b for strings. -/
def substrOf (needle hay : String) : Bool :=
  charsInfixOf needle.toList hay.toList

/-- Python s in x for a string literal s (raises TypeError on non-containers). -/
def pyContainsStr (s : String) (x : Val) : Except PyErr Bool :=
  match x with
  | .vdict d => .ok (d.any (fun p => p.1 = s))
  | .vlist l => .ok (l.contains (.vstr s))
  | .vstr t => .ok (substrOf s t)
  | _ => .error .typeError

/-- Python x[k] for a string key. -/
def pySubscr (x : Val) (k : String) : Except PyErr Val :=
  match x with
  | .vdict d =>
    match dlookup d k with
    | some v => .ok v
    | none => .error .keyError
  | _ => .error .typeError

/-- Python x[0]. -/
def pyIndex0 (x : Val) : Except PyErr Val :=
  match x with
  | .vlist l =>
    match l with
    | [] => .error .keyError
    | v :: _ => .ok v
  | .vstr s =>
    match s.toList with
    | [] => .error .keyError
    | c :: _ => .ok (.vstr c.toString)
  | _ => .error .typeError

/-- Python len(x). -/
def pyLen (x : Val) : Except PyErr Nat :=
  match x with
  | .vlist l => .ok l.length
  | .vdict d => .ok d.length
  | .vstr s => .ok s.length
  | _ => .error .typeError

/-- Python iteration over x (lists yield items, dicts yield keys, strings chars). -/
def pyIter (x : Val) : Except PyErr (List Val) :=
  match x with
  | .vlist l => .ok l
  | .vdict d => .ok (d.map (fun p => .vstr p.1))
  | .vstr s => .ok (s.toList.map (fun c => .vstr c.toString))
  | _ => .error .typeError

/-- Python x.lower() (raises AttributeError on non-strings). -/
def valLower (x : Val) : Except PyErr String :=
  match x with
  | .vstr s => .ok (strLower s)
  | _ => .error .attrError

/-- Python x.upper() (raises AttributeError on non-strings). -/
def valUpper (x : Val) : Except PyErr String :=
  match x with
  | .vstr s => .ok (strUpper s)
  | _ => .error .attrError

/-- Python x.strip() (raises AttributeError on non-strings). -/
def valStrip (x : Val) : Except PyErr String :=
  match x with
  | .vstr s => .ok (strTrim s)
  | _ => .error .attrError

mutual

/-- Python str(x), used for f-string interpolation of payload values.  The
rendering of containers is abstract (the services never inspect it). -/
def pyStr : Val → String
  | .vnull => "None"
  | .vbool b => if b then "True" else "False"
  | .vnum n => toString n
  | .vstr s => s
  | .vlist l => "[" ++ pyStrList l ++ "]"
  | .vdict d => "dict(" ++ pyStrDict d ++ ")"

/-- Comma-joined rendering of list elements. -/
def pyStrList : List Val → String
  | [] => ""
  | [v] => pyStr v
  | v :: rest => pyStr v ++ ", " ++ pyStrList rest

/-- Comma-joined rendering of dict entries. -/
def pyStrDict : List (String × Val) → String
  | [] => ""
  | [(k, v)] => k ++ ": " ++ pyStr v
  | (k, v) :: rest => k ++ ": " ++ pyStr v ++ ", " ++ pyStrDict rest

end

/-! ## Upstream fetch environment, service state, fetch log -/

/-- The fetchable upstream resources of the two providers. -/
inductive FetchKey where
  | teams : FetchKey
  | roster : Val → FetchKey
  | stats : String → String → FetchKey
  | sleeperAll : FetchKey
  deriving DecidableEq

/-- One log of the fetches a call attempted, in order. -/
abbrev Log := List FetchKey

/-- Outcome of every upstream fetch: the parsed JSON payload, or a failure
(network error, non-2xx status, malformed body). -/
structure FetchEnv where
  teams : Except PyErr Val
  roster : Val → Except PyErr Val
  stats : String → String → Except PyErr Val
  sleeperPlayers : Except PyErr Val

/-- ESPNService mutable state: the per-team roster cache self dot _team_rosters. -/
structure ESPNState where
  teamRosters : List (Val × List Val)
  deriving DecidableEq

/-- Lookup in the roster cache (Python membership test on the cache dict). -/
def rosterLookup (c : List (Val × List Val)) (k : Val) : Option (List Val) :=
  match c with
  | [] => none
  | (k', v) :: rest => if k' = k then some v else rosterLookup rest k

/-- SleeperService mutable state: self dot _players_cache. -/
structure SleeperState where
  playersCache : Option Val
  deriving DecidableEq

/-- HybridNFLService state: one ESPN service and one Sleeper service. -/
structure HState where
  espn : ESPNState
  sleeper : SleeperState
  deriving DecidableEq

/-! ## ESPNService (espn_service.py) -/

/-- ESPNService._create_fallback_player: the synthesized record returned when
the search fails or finds no match. -/
def createFallbackPlayer (player_name : String) : Val :=
  .vdict [("id", .vstr "fallback"),
          ("displayName", .vstr player_name),
          ("position", .vdict [("abbreviation", .vstr "PLAYER")]),
          ("team", .vdict [("abbreviation", .vstr "NFL"), ("id", .vstr "0")]),
          ("headshot", .vnull)]

/-- ESPNService._create_mock_stats: the fixed stats bundle used when real
stats are unavailable. -/
def mockStats : Val :=
  .vdict [("splits", .vdict [("categories", .vlist
            [.vdict [("name", .vstr "general"),
                     ("stats", .vlist
                       [.vdict [("name", .vstr "gamesPlayed"), ("value", .vnum 10)],
                        .vdict [("name", .vstr "touchdowns"), ("value", .vnum 5)]])]])]),
          ("note", .vstr "Limited stats available")]

/-- Body of ESPNService._get_all_teams after the fetch: extract the teams
from the nested sports/leagues/teams structure. -/
def parseTeams (data : Val) : Except PyErr (List Val) := do
  let c1 ← pyContainsStr "sports" data
  if c1 then
    let sports ← pySubscr data "sports"
    let n1 ← pyLen sports
    if n1 > 0 then
      let sport ← pyIndex0 sports
      let c2 ← pyContainsStr "leagues" sport
      if c2 then
        let leagues ← pySubscr sport "leagues"
        let n2 ← pyLen leagues
        if n2 > 0 then
          let league ← pyIndex0 leagues
          let c3 ← pyContainsStr "teams" league
          if c3 then
            let teamList ← pySubscr league "teams"
            let items ← pyIter teamList
            items.foldlM (fun acc td => do
              let ct ← pyContainsStr "team" td
              if ct then
                let t ← pySubscr td "team"
                pure (acc ++ [t])
              else pure acc) ([] : List Val)
          else pure []
        else pure []
      else pure []
    else pure []
  else pure []

/-- ESPNService._get_all_teams: fetch the team list; any failure inside the
try block yields the empty list. -/
def getAllTeams (env : FetchEnv) : List Val × Log :=
  match env.teams with
  | .error _ => ([], [.teams])
  | .ok data =>
    match parseTeams data with
    | .ok ts => (ts, [.teams])
    | .error _ => ([], [.teams])

/-- Body of ESPNService._get_team_roster after the fetch: flatten the
position groups into one athlete list. -/
def parseRosterAthletes (data : Val) : Except PyErr (List Val) := do
  let c ← pyContainsStr "athletes" data
  if c then
    let groups ← pySubscr data "athletes"
    let gl ← pyIter groups
    gl.foldlM (fun acc pg => do
      let ci ← pyContainsStr "items" pg
      if ci then
        let items ← pySubscr pg "items"
        let il ← pyIter items
        pure (acc ++ il)
      else pure acc) ([] : List Val)
  else pure []

/-- Athlete list a successful roster fetch of this payload would produce. -/
def rosterAthletesOfData (data : Val) : List Val :=
  match parseRosterAthletes data with
  | .ok l => l
  | .error _ => []

/-- ESPNService._get_team_roster: serve from the cache when present;
otherwise fetch, cache on success and return none on any failure.  The cache
membership test itself sits before the try block, so an unhashable team id
raises out of the method. -/
def getTeamRoster (env : FetchEnv) (st : ESPNState) (team_id : Val) :
    Except PyErr (Option (List Val) × ESPNState × Log) :=
  if !team_id.hashable then .error .typeError
  else
    match rosterLookup st.teamRosters team_id with
    | some r => .ok (some r, st, [])
    | none =>
      match env.roster team_id with
      | .error _ => .ok (none, st, [.roster team_id])
      | .ok data =>
        match parseRosterAthletes data with
        | .error _ => .ok (none, st, [.roster team_id])
        | .ok athletes =>
          .ok (some athletes, ⟨st.teamRosters ++ [(team_id, athletes)]⟩, [.roster team_id])

/-- The team info dict search_player writes into a matched athlete. -/
def mkTeamInfo (team_id team_abbr team : Val) : Except PyErr Val := do
  let tdn ← pyGetD team "displayName" team_abbr
  pure (.vdict [("id", team_id), ("abbreviation", team_abbr), ("displayName", tdn)])

/-- Writing the team info into a matched athlete (Python subscript
assignment; the caller reaches this only for dict athletes, so the identity
branch is dead). -/
def setTeamOn (tinfo : Val) (a : Val) : Val :=
  match a with
  | .vdict d => .vdict (dset d "team" tinfo)
  | _ => a

/-- Inner loop of ESPNService.search_player over one roster: skip falsy or
non-dict entries and entries with a missing or empty display name, return the
first athlete whose lower-cased name passes the bidirectional containment
test, with the team info written into it. -/
def scanRoster (search_term : String) (team_id team_abbr team : Val) :
    List Val → Except PyErr (Option Val)
  | [] => .ok none
  | a :: rest =>
    if !(a.truthy && a.isDict) then scanRoster search_term team_id team_abbr team rest
    else do
      let dn ← pyGetD a "displayName" (.vstr "")
      let athlete_name ← valLower dn
      if athlete_name = "" then scanRoster search_term team_id team_abbr team rest
      else if substrOf search_term athlete_name || substrOf athlete_name search_term then do
        let tinfo ← mkTeamInfo team_id team_abbr team
        pure (some (setTeamOn tinfo a))
      else scanRoster search_term team_id team_abbr team rest

/-- Outer loop of ESPNService.search_player over the team list, threading the
roster cache and the fetch log. -/
def searchLoop (env : FetchEnv) (search_term : String) :
    List Val → ESPNState → Log → Except PyErr (Option Val) × ESPNState × Log
  | [], st, log => (.ok none, st, log)
  | team :: rest, st, log =>
    match pyGetD team "id" .vnull with
    | .error e => (.error e, st, log)
    | .ok team_id =>
      match pyGetD team "abbreviation" (.vstr "UNK") with
      | .error e => (.error e, st, log)
      | .ok team_abbr =>
        match getTeamRoster env st team_id with
        | .error e => (.error e, st, log)
        | .ok (rosterOpt, st', l) =>
          let log' := log ++ l
          match rosterOpt with
          | none => searchLoop env search_term rest st' log'
          | some roster =>
            if roster.isEmpty then searchLoop env search_term rest st' log'
            else
              match scanRoster search_term team_id team_abbr team roster with
              | .error e => (.error e, st', log')
              | .ok (some athlete) => (.ok (some athlete), st', log')
              | .ok none => searchLoop env search_term rest st' log'

/-- ESPNService.search_player: normalize the query, fetch the teams, scan all
rosters, and fall back to the synthesized record when no teams were fetched,
no athlete matched, or anything inside the try block raised. -/
def search_player (env : FetchEnv) (st : ESPNState) (player_name : String) :
    Except PyErr (Val × ESPNState × Log) :=
  let search_term := strTrim (strLower player_name)
  let (teams, log0) := getAllTeams env
  if teams.isEmpty then .ok (createFallbackPlayer player_name, st, log0)
  else
    match searchLoop env search_term teams st log0 with
    | (.ok (some athlete), st', log) => .ok (athlete, st', log)
    | (.ok none, st', log) => .ok (createFallbackPlayer player_name, st', log)
    | (.error _, st', log) => .ok (createFallbackPlayer player_name, st', log)

/-- ESPNService.get_player_stats: the sentinel fallback id short-circuits to
the mock bundle; a fetch failure degrades to the mock bundle as well. -/
def get_player_stats (env : FetchEnv) (player_id : String) (season : String) :
    Except PyErr (Val × Log) :=
  if player_id = "fallback" then .ok (mockStats, [])
  else
    match env.stats player_id season with
    | .ok data => .ok (data, [.stats player_id season])
    | .error _ => .ok (mockStats, [.stats player_id season])

/-! ## SleeperService (sleeper_service.py) -/

/-- SleeperService.get_all_players: return the cached payload when present;
otherwise fetch and, on success, run the cache assignment and then a log line
that calls len on the payload, still inside the try block.  For a sized
payload (dict, list, string) the payload is returned; for an unsized payload
(null, number, bool) the len call raises TypeError after the assignment, so
the handler returns an empty dict while the payload is already cached.  A
cached Python None is indistinguishable from an unpopulated cache under the
is-not-None guard, so storing a null payload is modelled as none.  A fetch
failure returns an empty dict and leaves the cache untouched. -/
def get_all_players (env : FetchEnv) (st : SleeperState) : Val × SleeperState × Log :=
  match st.playersCache with
  | some c => (c, st, [])
  | none =>
    match env.sleeperPlayers with
    | .ok players =>
      let st' : SleeperState := ⟨if players = .vnull then none else some players⟩
      match pyLen players with
      | .ok _ => (players, st', [.sleeperAll])
      | .error _ => (.vdict [], st', [.sleeperAll])
    | .error _ => (.vdict [], st, [.sleeperAll])

/-- Loop of SleeperService.get_player_by_name over the players dict: return
the first entry whose lower-cased full_name passes the bidirectional
containment test, with the sleeper_id written into it. -/
def sleeperScan (search_name : String) :
    List (String × Val) → Except PyErr (Option Val)
  | [] => .ok none
  | (sid, pd) :: rest =>
    match pd with
    | .vdict d => do
      let fnv := lookupD d "full_name" (.vstr "")
      let full_name ← valLower fnv
      if substrOf search_name full_name || substrOf full_name search_name then
        pure (some (.vdict (dset d "sleeper_id" (.vstr sid))))
      else sleeperScan search_name rest
    | _ => .error .attrError

/-- SleeperService.get_player_by_name: any failure inside the try block
(including a non-dict players payload) yields none. -/
def get_player_by_name (env : FetchEnv) (st : SleeperState) (name : String) :
    Except PyErr (Option Val × SleeperState × Log) :=
  let (players, st', log) := get_all_players env st
  let search_name := strTrim (strLower name)
  match players with
  | .vdict entries =>
    match sleeperScan search_name entries with
    | .ok r => .ok (r, st', log)
    | .error _ => .ok (none, st', log)
  | _ => .ok (none, st', log)

/-- SleeperService._matches_position_group: RB absorbs FB, K absorbs PK,
anything else matches only itself.  The position comes from the payload, so
upper-casing it raises on a non-string. -/
def matchesPositionGroup (position : Val) (group : String) : Except PyErr Bool := do
  let p ← valUpper position
  let g := strUpper group
  if g = "QB" then pure (p = "QB")
  else if g = "RB" then pure (p = "RB" || p = "FB")
  else if g = "WR" then pure (p = "WR")
  else if g = "TE" then pure (p = "TE")
  else if g = "K" then pure (p = "K" || p = "PK")
  else pure (p = g)

/-- Loop of SleeperService.get_team_injuries over the players dict: keep the
entries on the given team whose position is in the position group and whose
injury_status is a non-blank string, rendered as name, position and a
composed status string. -/
def injuriesScan (team_abbr_upper pg_upper : String) :
    List (String × Val) → List Val → Except PyErr (List Val)
  | [], acc => .ok acc
  | (_, pd) :: rest, acc =>
    if !(pd.truthy && pd.isDict) then injuriesScan team_abbr_upper pg_upper rest acc
    else do
      let player_team ← pyGetD pd "team" .vnull
      if !player_team.truthy then injuriesScan team_abbr_upper pg_upper rest acc
      else do
        let pt ← valUpper player_team
        if pt ≠ team_abbr_upper then injuriesScan team_abbr_upper pg_upper rest acc
        else do
          let player_pos ← pyGetD pd "position" .vnull
          if !player_pos.truthy then injuriesScan team_abbr_upper pg_upper rest acc
          else do
            let m ← matchesPositionGroup player_pos pg_upper
            if !m then injuriesScan team_abbr_upper pg_upper rest acc
            else do
              let inj ← pyGetD pd "injury_status" (.vstr "")
              let statusOk ← (if inj.truthy then do
                  let s ← valStrip inj
                  pure (s != "")
                else pure false)
              if !statusOk then injuriesScan team_abbr_upper pg_upper rest acc
              else do
                let bp ← pyGetD pd "injury_body_part" (.vstr "")
                let isUp ← valUpper inj
                let full_status := if bp.truthy then isUp ++ " - " ++ pyStr bp else isUp
                let nm ← pyGetD pd "full_name" (.vstr "Unknown")
                injuriesScan team_abbr_upper pg_upper rest
                  (acc ++ [.vdict [("name", nm), ("position", player_pos),
                                   ("injury_status", .vstr full_status)]])

/-- Try-block body of SleeperService.get_team_injuries: guard against a
falsy or sentinel team and a falsy position group, fetch the players dataset
and scan it.  Both arguments flow in from payload data, so they are values
and upper-casing can raise. -/
def injuriesBody (env : FetchEnv) (st : SleeperState) (team_abbr position_group : Val) :
    Except PyErr (List Val) × SleeperState × Log :=
  if !team_abbr.truthy then (.ok [], st, [])
  else
    match valUpper team_abbr with
    | .error e => (.error e, st, [])
    | .ok ta =>
      if ta = "N/A" then (.ok [], st, [])
      else if !position_group.truthy then (.ok [], st, [])
      else
        let (players, st', log) := get_all_players env st
        if !players.truthy then (.ok [], st', log)
        else
          match valUpper position_group with
          | .error e => (.error e, st', log)
          | .ok pg =>
            match players with
            | .vdict entries => (injuriesScan ta pg entries [], st', log)
            | _ => (.error .attrError, st', log)

/-- SleeperService.get_team_injuries: run the try-block body and convert any
failure inside it to the empty list. -/
def get_team_injuries (env : FetchEnv) (st : SleeperState) (team_abbr position_group : Val) :
    Except PyErr (List Val × SleeperState × Log) :=
  match injuriesBody env st team_abbr position_group with
  | (.ok l, st', log) => .ok (l, st', log)
  | (.error _, st', log) => .ok ([], st', log)

/-! ## HybridNFLService (hybrid_service.py) -/

/-- HybridNFLService.get_complete_player_data: search ESPN, return none when
the search result is falsy, build the combined record, and enrich it with the
Sleeper match when one exists. -/
def get_complete_player_data (env : FetchEnv) (st : HState) (player_name : String) :
    Except PyErr (Option Val × HState × Log) := do
  let (ep, est', log1) ← search_player env st.espn player_name
  if !ep.truthy then pure (none, ⟨est', st.sleeper⟩, log1)
  else do
    let nameV ← pyGetD ep "displayName" (.vstr player_name)
    let posOuter ← pyGetD ep "position" (.vdict [])
    let posV ← pyGetD posOuter "abbreviation" (.vstr "N/A")
    let teamOuter ← pyGetD ep "team" (.vdict [])
    let teamV ← pyGetD teamOuter "abbreviation" (.vstr "N/A")
    let idV ← pyGetD ep "id" .vnull
    let pd0 : List (String × Val) :=
      [("name", nameV), ("position", posV), ("team", teamV),
       ("espn_id", idV), ("espn_data", ep)]
    let (spOpt, sst', log2) ← get_player_by_name env st.sleeper player_name
    match spOpt with
    | some sp => do
      let sidA ← pyGetD sp "sleeper_id" .vnull
      let sidB ← pyGetD sp "player_id" .vnull
      let sid := if sidA.truthy then sidA else sidB
      let pd1 := dset (dset pd0 "sleeper_id" sid) "sleeper_data" sp
      pure (some (.vdict pd1), ⟨est', sst'⟩, log1 ++ log2)
    | none => pure (some (.vdict pd0), ⟨est', sst'⟩, log1 ++ log2)

/-- The methods the class ESPNService defines, transcribed from
espn_service.py. -/
def espnServiceMethods : List String :=
  ["__init__", "search_player", "_get_all_teams", "_get_team_roster",
   "_create_fallback_player", "get_player_stats", "_create_mock_stats",
   "get_player_info", "get_team_schedule", "get_scoreboard", "close"]

/-- The expression self.espn.get_team_context(espn_id, position, team_id) in
HybridNFLService.get_team_context: Python attribute lookup on the ESPNService
instance, which raises AttributeError because the class defines no such
method (the then branch is unreachable). -/
def espnGetTeamContextCall (_espn_id _position _team_id : Val) : Except PyErr Val :=
  if espnServiceMethods.contains "get_team_context" then .ok .vnull
  else .error .attrError

/-- The fixed fallback context HybridNFLService.get_team_context returns when
ids are missing or the try block raises. -/
def fallbackContext : Val :=
  .vdict [("context", .vstr "No team context available"),
          ("depth", .vnull),
          ("injured_teammates", .vlist [])]

/-- Filter of get_team_context removing entries whose name equals the subject
(case-insensitive); both names come from payloads so lower-casing can
raise. -/
def filterSelf (player_name : Val) : List Val → Except PyErr (List Val)
  | [] => .ok []
  | inj :: rest => do
    let nv ← pyGetD inj "name" (.vstr "")
    let injName ← valLower nv
    let pn ← valLower player_name
    let tail ← filterSelf player_name rest
    if injName ≠ pn then pure (inj :: tail) else pure tail

/-- Try-block body of HybridNFLService.get_team_context after the field
reads: call the missing ESPN method, then (dead code) query the Sleeper
injuries for the position group and exclude the subject. -/
def teamContextBody (env : FetchEnv) (st : HState)
    (espn_id position team_id team_abbr player_name : Val) :
    Except PyErr Val × HState × Log :=
  match espnGetTeamContextCall espn_id position team_id with
  | .error e => (.error e, st, [])
  | .ok espn_context =>
    match pyGetD espn_context "position_group" .vnull with
    | .error e => (.error e, st, [])
    | .ok position_group =>
      if position_group.truthy then
        match get_team_injuries env st.sleeper team_abbr position_group with
        | .error e => (.error e, st, [])
        | .ok (all_injuries, sst', log) =>
          match filterSelf player_name all_injuries with
          | .error e => (.error e, ⟨st.espn, sst'⟩, log)
          | .ok teammate_injuries =>
            match espn_context with
            | .vdict d =>
              (.ok (.vdict (dset d "injured_teammates" (.vlist teammate_injuries))),
               ⟨st.espn, sst'⟩, log)
            | _ => (.error .typeError, ⟨st.espn, sst'⟩, log)
      else
        match espn_context with
        | .vdict d => (.ok (.vdict (dset d "injured_teammates" (.vlist []))), st, [])
        | _ => (.error .typeError, st, [])

/-- HybridNFLService.get_team_context: read the subject fields from the
player record, return the fallback context when the team or ESPN id is
missing, and otherwise run the try block, converting any raise into the
fallback context. -/
def hybrid_get_team_context (env : FetchEnv) (st : HState)
    (player_data : List (String × Val)) :
    Except PyErr (Val × HState × Log) := do
  let position := lookupD player_data "position" (.vstr "N/A")
  let player_name := lookupD player_data "name" (.vstr "")
  let espn_id := lookupD player_data "espn_id" .vnull
  let ed := lookupD player_data "espn_data" (.vdict [])
  let tm ← pyGetD ed "team" (.vdict [])
  let team_id ← pyGetD tm "id" .vnull
  let team_abbr := lookupD player_data "team" (.vstr "N/A")
  if !team_id.truthy || !espn_id.truthy then
    pure (fallbackContext, st, [])
  else
    match teamContextBody env st espn_id position team_id team_abbr player_name with
    | (.ok v, st', log) => pure (v, st', log)
    | (.error _, st', log) => pure (fallbackContext, st', log)

/-- The not-found guard in the analyze route (routes.py line 38): taken
exactly when the ESPN search result is falsy. -/
def analyzeNotFoundBranch (env : FetchEnv) (st : ESPNState) (player_name : String) : Bool :=
  match search_player env st player_name with
  | .ok (v, _, _) => !v.truthy
  | .error _ => false

/-! ## Helper lemmas on the dict and cache primitives -/

/-- Decidable equality for Except results, used to evaluate closed runs. -/
instance {ε α : Type} [DecidableEq ε] [DecidableEq α] : DecidableEq (Except ε α) :=
  fun a b =>
    match a, b with
    | .ok x, .ok y =>
      match decEq x y with
      | .isTrue h => .isTrue (by rw [h])
      | .isFalse h => .isFalse (fun hh => h (by cases hh; rfl))
    | .error x, .error y =>
      match decEq x y with
      | .isTrue h => .isTrue (by rw [h])
      | .isFalse h => .isFalse (fun hh => h (by cases hh; rfl))
    | .ok _, .error _ => .isFalse (fun h => Except.noConfusion h)
    | .error _, .ok _ => .isFalse (fun h => Except.noConfusion h)

/-! ## Fixtures and auxiliary predicates used by the theorems -/

/-- A single-team ESPN teams payload (id 1, KC). -/
def kcTeamsPayload : Val :=
  .vdict [("sports", .vlist [.vdict [("leagues", .vlist [.vdict [("teams", .vlist
    [.vdict [("team", .vdict [("id", .vstr "1"), ("abbreviation", .vstr "KC"),
      ("displayName", .vstr "Kansas City Chiefs")])]])]])]])]

/-- The roster athlete used by the concrete fixtures. -/
def kcMahomesAthlete : Val :=
  .vdict [("id", .vstr "123"), ("displayName", .vstr "Patrick Mahomes"),
          ("position", .vdict [("abbreviation", .vstr "QB")])]

/-- A roster payload holding one athlete, Patrick Mahomes. -/
def kcRosterPayload : Val :=
  .vdict [("athletes", .vlist [.vdict [("items", .vlist [kcMahomesAthlete])]])]

/-- Entries of the Sleeper players payload: a healthy subject and one
injured QB teammate on the same team. -/
def kcSleeperEntries : List (String × Val) :=
  [("777", .vdict [("full_name", .vstr "Patrick Mahomes"), ("team", .vstr "KC"),
     ("position", .vstr "QB"), ("injury_status", .vstr "")]),
   ("888", .vdict [("full_name", .vstr "Backup Guy"), ("team", .vstr "KC"),
     ("position", .vstr "QB"), ("injury_status", .vstr "Out"),
     ("injury_body_part", .vstr "Knee")])]

/-- The Sleeper players payload built from those entries. -/
def kcSleeperPayload : Val := .vdict kcSleeperEntries

/-- Environment where both providers answer with the KC fixtures. -/
def kcEnv : FetchEnv where
  teams := .ok kcTeamsPayload
  roster := fun _ => .ok kcRosterPayload
  stats := fun _ _ => .error .fetchError
  sleeperPlayers := .ok kcSleeperPayload

/-- The player record the aggregation would hold for the KC subject. -/
def kcSubjectRecord : List (String × Val) :=
  [("name", .vstr "Patrick Mahomes"), ("position", .vstr "QB"), ("team", .vstr "KC"),
   ("espn_id", .vstr "123"),
   ("espn_data", .vdict [("team", .vdict [("id", .vstr "1"), ("abbreviation", .vstr "KC")])])]

/-- Environment in which every upstream fetch fails. -/
def failEnvC7 : FetchEnv where
  teams := .error .fetchError
  roster := fun _ => .error .fetchError
  stats := fun _ _ => .error .fetchError
  sleeperPlayers := .error .fetchError

/-- Roster payload whose athlete list is empty: the provider confirmed an
empty collection. -/
def emptyRosterPayload : Val := .vdict [("athletes", .vlist [])]

/-- Environment whose roster fetch succeeds with an empty athlete list. -/
def emptyRosterEnv : FetchEnv where
  teams := .ok kcTeamsPayload
  roster := fun _ => .ok emptyRosterPayload
  stats := fun _ _ => .error .fetchError
  sleeperPlayers := .ok kcSleeperPayload

/-- Environment whose players fetch succeeds with a scalar (unsized)
payload. -/
def scalarSleeperEnv : FetchEnv where
  teams := .error .fetchError
  roster := fun _ => .error .fetchError
  stats := fun _ _ => .error .fetchError
  sleeperPlayers := .ok (.vnum 7)

/-- Environment whose players fetch succeeds with the JSON null payload. -/
def nullSleeperEnv : FetchEnv where
  teams := .error .fetchError
  roster := fun _ => .error .fetchError
  stats := fun _ _ => .error .fetchError
  sleeperPlayers := .ok .vnull

/-- Well-typedness of the player record fields read before the try block of
get_team_context: the espn_data entry is a dict and its team entry, when
present, is a dict. -/
def espnDataWF (pd : List (String × Val)) : Bool :=
  match lookupD pd "espn_data" (.vdict []) with
  | .vdict d0 =>
    match dlookup d0 "team" with
    | none => true
    | some (.vdict _) => true
    | some _ => false
  | _ => false

/-- The test search_player applies to a roster entry: a truthy dict whose
display name, read with an empty-string default, is a string that lower-cases
to a non-empty name passing the bidirectional containment test against the
normalized query. -/
def espnCandidateTest (search_term : String) (a : Val) : Bool :=
  a.truthy && a.isDict &&
    (match a with
     | .vdict d =>
       match (dlookup d "displayName").getD (.vstr "") with
       | .vstr s =>
         strLower s != "" &&
           (substrOf search_term (strLower s) || substrOf (strLower s) search_term)
       | _ => false
     | _ => false)

/-- A roster entry whose display name, if any, is a string (so reading it
does not raise). -/
def athleteNameOk (a : Val) : Bool :=
  match a with
  | .vdict d =>
    match dlookup d "displayName" with
    | none => true
    | some (.vstr _) => true
    | some _ => false
  | _ => true

/-- Shape of every team info dict mkTeamInfo can produce. -/
def teamInfoShape (tinfo : Val) : Prop :=
  ∃ i ab dn, tinfo = .vdict [("id", i), ("abbreviation", ab), ("displayName", dn)]

/-- A Sleeper player entry whose full_name, if any, is a string. -/
def sleeperEntryWF (p : String × Val) : Bool :=
  match p.2 with
  | .vdict d =>
    match dlookup d "full_name" with
    | none => true
    | some (.vstr _) => true
    | some _ => false
  | _ => false

/-- The containment test get_player_by_name applies to one entry: the
lower-cased full_name (empty string when missing) against the normalized
query, in both directions.  No entry is skipped. -/
def sleeperCandidateTest (search_name : String) (p : String × Val) : Bool :=
  match p.2 with
  | .vdict d =>
    match (dlookup d "full_name").getD (.vstr "") with
    | .vstr s => substrOf search_name (strLower s) || substrOf (strLower s) search_name
    | _ => false
  | _ => false

/-- Writing the provider-native id into the returned entry. -/
def setSleeperIdOn (p : String × Val) : Val :=
  match p.2 with
  | .vdict d => .vdict (dset d "sleeper_id" (.vstr p.1))
  | _ => p.2

/-- A value that some successful roster fetch of the environment would yield
as an athlete entry. -/
def EnvFetched (env : FetchEnv) (a : Val) : Prop :=
  ∃ tid data, env.roster tid = .ok data ∧ a ∈ rosterAthletesOfData data

/-- Every athlete stored in the roster cache is fetchable from the
environment (holds for the empty cache and is preserved by every call). -/
def CacheSub (env : FetchEnv) (st : ESPNState) : Prop :=
  ∀ p ∈ st.teamRosters, ∀ a ∈ p.2, EnvFetched env a

/-- Modelled from the claim wording: title-casing (Python str.title), with
each alphabetic run starting upper-case and continuing lower-case.  The code
itself never title-cases; this is defined only to state what the claim
asserts and refute it. -/
def titleChars : Bool → List Char → List Char
  | _, [] => []
  | prevAlpha, c :: rest =>
    (if c.isAlpha then (if prevAlpha then c.toLower else c.toUpper) else c)
      :: titleChars c.isAlpha rest

/-- Title-casing of a whole string, per the claim wording. -/
def spec_titleCase (s : String) : String := String.mk (titleChars false s.data)

/-- The bidirectional containment test of the name matcher, exactly as both
services compute it: lower-case both sides, trim the query, substring in
either direction. -/
def containsEither (query cand : String) : Bool :=
  substrOf (strTrim (strLower query)) (strLower cand)
    || substrOf (strLower cand) (strTrim (strLower query))

/-- A roster entry that is a non-empty dict with an empty display name. -/
def c9EmptyNameAthlete : Val := .vdict [("displayName", .vstr ""), ("id", .vstr "7")]

/-- A roster whose first entry has an empty display name and whose second is
a real athlete. -/
def c9RosterPayload : Val :=
  .vdict [("athletes", .vlist [.vdict [("items",
    .vlist [c9EmptyNameAthlete, kcMahomesAthlete])]])]

/-- Environment serving that roster. -/
def c9Env : FetchEnv where
  teams := .ok kcTeamsPayload
  roster := fun _ => .ok c9RosterPayload
  stats := fun _ _ => .error .fetchError
  sleeperPlayers := .error .fetchError

/-- The KC team dict as the search loop passes it to the roster scan. -/
def kcTeamV : Val :=
  .vdict [("id", .vstr "1"), ("abbreviation", .vstr "KC"),
          ("displayName", .vstr "Kansas City Chiefs")]

/-- A roster entry whose position field, when present, is a dict, so that
the aggregation can chase position.abbreviation without raising. -/
def positionFieldOk (a : Val) : Bool :=
  match a with
  | .vdict d =>
    match dlookup d "position" with
    | none => true
    | some (.vdict _) => true
    | some _ => false
  | _ => true

/-- The id value the search loop extracts from a team entry. -/
def teamIdOf (t : Val) : Val :=
  match t with
  | .vdict d => (dlookup d "id").getD .vnull
  | _ => .vnull

/-- Teams payload listing the same team id twice. -/
def dupTeamsPayload : Val :=
  .vdict [("sports", .vlist [.vdict [("leagues", .vlist [.vdict [("teams", .vlist
    [.vdict [("team", .vdict [("id", .vstr "1"), ("abbreviation", .vstr "KC")])],
     .vdict [("team", .vdict [("id", .vstr "1"), ("abbreviation", .vstr "KC")])]])]])]])]

/-- Environment with the duplicated team list and a failing roster fetch. -/
def dupEnv : FetchEnv where
  teams := .ok dupTeamsPayload
  roster := fun _ => .error .fetchError
  stats := fun _ _ => .error .fetchError
  sleeperPlayers := .error .fetchError

theorem dlookup_dset_ne (d : List (String × Val)) (k k' : String) (v : Val)
    (h : k' ≠ k) : dlookup (dset d k v) k' = dlookup d k' := by
  induction d with
  | nil => simp [dset, dlookup, Ne.symm h]
  | cons p rest ih =>
    obtain ⟨pk, pv⟩ := p
    by_cases hk : pk = k
    · subst hk
      simp [dset, dlookup, h, Ne.symm h]
    · simp [dset, dlookup, hk]
      by_cases hk' : pk = k'
      · simp [hk']
      · simp [hk', ih]

theorem dset_ne_nil (d : List (String × Val)) (k : String) (v : Val) :
    dset d k v ≠ [] := by
  cases d with
  | nil => simp [dset]
  | cons p rest =>
    obtain ⟨pk, pv⟩ := p
    by_cases hk : pk = k <;> simp [dset, hk]

theorem rosterLookup_append_self (c : List (Val × List Val)) (k : Val) (v : List Val)
    (h : rosterLookup c k = none) : rosterLookup (c ++ [(k, v)]) k = some v := by
  induction c with
  | nil => simp [rosterLookup]
  | cons p rest ih =>
    obtain ⟨pk, pv⟩ := p
    by_cases hk : pk = k
    · simp [rosterLookup, hk] at h
    · simp [rosterLookup, hk] at h ⊢
      exact ih h

theorem rosterLookup_mem (c : List (Val × List Val)) (k : Val) (v : List Val)
    (h : rosterLookup c k = some v) : (k, v) ∈ c := by
  induction c with
  | nil => simp [rosterLookup] at h
  | cons p rest ih =>
    obtain ⟨pk, pv⟩ := p
    by_cases hk : pk = k
    · subst hk
      simp [rosterLookup] at h
      simp [h]
    · simp [rosterLookup, hk] at h
      exact List.mem_cons_of_mem _ (ih h)

/-! ## C5 -/

/-- Counterexample to C5 as stated: for the sentinel id fallback the
attributes lookup does not return none; it returns the fixed mock stats
bundle, which is not the none value. -/
theorem C5_counterexample :
    get_player_stats kcEnv "fallback" "2024" = .ok (mockStats, []) ∧ mockStats ≠ .vnull := by
  constructor
  · rfl
  · decide

/-- C5 (amended): when the entity id is the sentinel fallback, the attributes
lookup returns the fixed mock stats bundle without attempting a fetch and
without raising an error. -/
theorem C5_fallback_stats_mock (env : FetchEnv) (season : String) :
    get_player_stats env "fallback" season = .ok (mockStats, []) := by
  rfl

/-! ## C2 -/

/-- C2 at the failing input: the Sleeper provider does report an injured QB
teammate on the same team, yet get_team_context returns the fallback context
with an empty injured_teammates list, because the ESPN call it makes first
names a method that does not exist. -/
theorem C2_code_behavior :
    get_team_injuries kcEnv ⟨none⟩ (.vstr "KC") (.vstr "QB")
      = .ok ([.vdict [("name", .vstr "Backup Guy"), ("position", .vstr "QB"),
                      ("injury_status", .vstr "OUT - Knee")]],
             ⟨some kcSleeperPayload⟩, [.sleeperAll])
    ∧ hybrid_get_team_context kcEnv ⟨⟨[]⟩, ⟨none⟩⟩ kcSubjectRecord
      = .ok (fallbackContext, ⟨⟨[]⟩, ⟨none⟩⟩, [])
    ∧ dlookup [("context", .vstr "No team context available"), ("depth", .vnull),
               ("injured_teammates", .vlist [])] "injured_teammates" = some (.vlist []) := by
  refine ⟨by decide, by decide, rfl⟩

/-! ## C7 -/

/-- C7: neither cache memoizes a failed fetch.  A failing roster fetch leaves
the ESPN roster cache unchanged, and the next get for the same key fetches
again (and succeeds when the upstream recovered); a failing Sleeper players
fetch leaves the players cache empty, and the next get fetches the resource
again (returning and caching the payload when it is a sized collection). -/
theorem C7_failed_fetch_not_cached
    (env1 env2 : FetchEnv) (st : ESPNState) (sst : SleeperState) (tid : Val)
    (e1 e2 : PyErr)
    (hmiss : rosterLookup st.teamRosters tid = none)
    (hhash : tid.hashable = true)
    (hfail : env1.roster tid = .error e1)
    (hsmiss : sst.playersCache = none)
    (hsfail : env1.sleeperPlayers = .error e2) :
    getTeamRoster env1 st tid = .ok (none, st, [.roster tid])
    ∧ (∀ data l, env2.roster tid = .ok data → parseRosterAthletes data = .ok l →
        getTeamRoster env2 st tid
          = .ok (some l, ⟨st.teamRosters ++ [(tid, l)]⟩, [.roster tid]))
    ∧ get_all_players env1 sst = (.vdict [], sst, [.sleeperAll])
    ∧ (get_all_players env2 sst).2.2 = [.sleeperAll]
    ∧ (∀ p n, env2.sleeperPlayers = .ok p → pyLen p = .ok n →
        get_all_players env2 sst = (p, ⟨some p⟩, [.sleeperAll])) := by
  refine ⟨?_, ?_, ?_, ?_, ?_⟩
  · simp [getTeamRoster, hhash, hmiss, hfail]
  · intro data l hok hparse
    simp [getTeamRoster, hhash, hmiss, hok, hparse]
  · simp [get_all_players, hsmiss, hsfail]
  · simp only [get_all_players, hsmiss]
    cases hok : env2.sleeperPlayers with
    | error e => simp
    | ok p =>
      cases hlen : pyLen p with
      | ok n => simp [hlen]
      | error e3 => simp [hlen]
  · intro p n hok hlen
    have hnn : p ≠ .vnull := by
      intro h
      subst h
      simp [pyLen] at hlen
    simp [get_all_players, hsmiss, hok, hlen, hnn]

/-- Witness for C7 at a concrete key: the failing environment leaves both
caches empty and the recovered environment is fetched again. -/
theorem C7_witness :
    getTeamRoster failEnvC7 ⟨[]⟩ (.vstr "1") = .ok (none, ⟨[]⟩, [.roster (.vstr "1")])
    ∧ (∀ data l, kcEnv.roster (.vstr "1") = .ok data → parseRosterAthletes data = .ok l →
        getTeamRoster kcEnv ⟨[]⟩ (.vstr "1")
          = .ok (some l, ⟨[] ++ [(.vstr "1", l)]⟩, [.roster (.vstr "1")]))
    ∧ get_all_players failEnvC7 ⟨none⟩ = (.vdict [], ⟨none⟩, [.sleeperAll])
    ∧ (get_all_players kcEnv ⟨none⟩).2.2 = [.sleeperAll]
    ∧ (∀ p n, kcEnv.sleeperPlayers = .ok p → pyLen p = .ok n →
        get_all_players kcEnv ⟨none⟩ = (p, ⟨some p⟩, [.sleeperAll])) :=
  C7_failed_fetch_not_cached failEnvC7 kcEnv ⟨[]⟩ ⟨none⟩ (.vstr "1")
    .fetchError .fetchError rfl rfl rfl rfl rfl

/-! ## C8 -/

/-- Counterexample to C8 as stated: a successful fetch of an unsized payload
breaks cache idempotence both ways.  With a number payload the first get
returns the empty dict (the len call in the logging line raises after the
cache assignment) while the second get returns the cached number, so two
sequential gets return structurally different results; with a null payload
the cache stays unpopulated (the guard is an is-not-None test), so the
second get issues a second fetch. -/
theorem C8_counterexample :
    get_all_players scalarSleeperEnv ⟨none⟩
      = (.vdict [], ⟨some (.vnum 7)⟩, [.sleeperAll])
    ∧ get_all_players scalarSleeperEnv ⟨some (.vnum 7)⟩
      = (.vnum 7, ⟨some (.vnum 7)⟩, [])
    ∧ (Val.vdict [] : Val) ≠ .vnum 7
    ∧ get_all_players nullSleeperEnv ⟨none⟩ = (.vdict [], ⟨none⟩, [.sleeperAll])
    ∧ ([FetchKey.sleeperAll] : Log) ≠ [] := by
  refine ⟨by decide, by decide, by decide, by decide, by decide⟩

/-- C8 (amended): after a get whose fetch succeeded with a sized payload
(dict, list or string — including the empty collection), and, for the roster
cache, after any get that returned a list, every subsequent get for the same
key returns the same stored result without fetching.  A successful fetch of
an unsized payload (null, number, bool) is excluded: there the logging line
raises after the cache assignment, so the first get returns an empty dict
while the payload is already cached (number, bool) or the cache stays
unpopulated (null). -/
theorem C8_cache_idempotent
    (env env' : FetchEnv) (st : ESPNState) (sst : SleeperState) (tid : Val)
    (l : List Val) (st1 : ESPNState) (log : Log)
    (hfirst : getTeamRoster env st tid = .ok (some l, st1, log))
    (hsp : sst.playersCache ≠ none
      ∨ (∃ q n, env.sleeperPlayers = .ok q ∧ pyLen q = .ok n)) :
    getTeamRoster env' st1 tid = .ok (some l, st1, [])
    ∧ (∀ v sst1 lg, get_all_players env sst = (v, sst1, lg) →
        get_all_players env' sst1 = (v, sst1, [])) := by
  constructor
  · by_cases hh : tid.hashable = true
    · rw [getTeamRoster] at hfirst
      simp only [hh, Bool.not_true, Bool.false_eq_true, if_false] at hfirst
      cases hlk : rosterLookup st.teamRosters tid with
      | some r =>
        simp only [hlk, Except.ok.injEq, Prod.mk.injEq] at hfirst
        obtain ⟨hl, hst, _⟩ := hfirst
        cases hl
        cases hst
        rw [getTeamRoster]
        simp [hh, hlk]
      | none =>
        simp only [hlk] at hfirst
        cases hrk : env.roster tid with
        | error e =>
          simp only [hrk] at hfirst
          simp at hfirst
        | ok data =>
          simp only [hrk] at hfirst
          cases hp : parseRosterAthletes data with
          | error e =>
            simp only [hp] at hfirst
            simp at hfirst
          | ok athletes =>
            simp only [hp, Except.ok.injEq, Prod.mk.injEq] at hfirst
            obtain ⟨hl, hst, _⟩ := hfirst
            cases hl
            rw [getTeamRoster]
            simp only [hh, Bool.not_true, Bool.false_eq_true, if_false]
            rw [← hst]
            rw [rosterLookup_append_self st.teamRosters tid l hlk]
    · rw [getTeamRoster] at hfirst
      simp only [Bool.not_eq_true] at hh
      simp [hh] at hfirst
  · intro v sst1 lg hga
    rw [get_all_players] at hga
    cases hc : sst.playersCache with
    | some c =>
      rw [hc] at hga
      simp only [Prod.mk.injEq] at hga
      obtain ⟨hv, hs, _⟩ := hga
      cases hv
      cases hs
      rw [get_all_players, hc]
    | none =>
      rw [hc] at hga
      rcases hsp with hne | ⟨q, n, hq, hlen⟩
      · exact absurd hc hne
      · have hnn : q ≠ .vnull := by
          intro h
          subst h
          simp [pyLen] at hlen
        rw [hq] at hga
        dsimp only at hga
        rw [hlen] at hga
        simp only [if_neg hnn, Prod.mk.injEq] at hga
        obtain ⟨hv, hs, _⟩ := hga
        cases hv
        cases hs
        rw [get_all_players]

/-- Witness for C8: a successful roster fetch that returned the empty list is
cached, and the second get serves the same empty list without fetching; the
sized Sleeper payload is cached by the first get and served by the second
without fetching. -/
theorem C8_witness :
    getTeamRoster failEnvC7 ⟨[(.vstr "1", [])]⟩ (.vstr "1")
      = .ok (some [], ⟨[(.vstr "1", [])]⟩, [])
    ∧ (∀ v sst1 lg, get_all_players emptyRosterEnv ⟨none⟩ = (v, sst1, lg) →
        get_all_players failEnvC7 sst1 = (v, sst1, [])) := by
  have h := C8_cache_idempotent emptyRosterEnv failEnvC7 ⟨[]⟩ ⟨none⟩ (.vstr "1")
    [] ⟨[(.vstr "1", [])]⟩ [.roster (.vstr "1")] (by decide)
    (Or.inr ⟨kcSleeperPayload, 2, rfl, by decide⟩)
  exact h

/-! ## C3 -/

/-- The try-block body of get_team_context fails on its first statement for
every argument: the ESPN method it calls does not exist. -/
theorem teamContextBody_attrError (env : FetchEnv) (st : HState)
    (espn_id position team_id team_abbr player_name : Val) :
    teamContextBody env st espn_id position team_id team_abbr player_name
      = (.error .attrError, st, []) := by
  have hc : espnServiceMethods.contains "get_team_context" = false := by decide
  simp only [teamContextBody, espnGetTeamContextCall, hc, Bool.false_eq_true, if_false]

/-- C3: ESPNService defines no method named get_team_context, so the call in
HybridNFLService.get_team_context raises AttributeError whenever it is
reached, the handler converts it to the fixed fallback context, and for every
well-typed input the returned context carries an empty injured_teammates
list; the teammate filtering after the call never runs. -/
theorem C3_team_context_always_fallback (env : FetchEnv) (st : HState)
    (pd : List (String × Val)) (h : espnDataWF pd = true) :
    hybrid_get_team_context env st pd = .ok (fallbackContext, st, [])
    ∧ espnServiceMethods.contains "get_team_context" = false
    ∧ (match fallbackContext with
       | .vdict d => dlookup d "injured_teammates"
       | _ => none) = some (.vlist []) := by
  refine ⟨?_, by decide, by decide⟩
  rw [hybrid_get_team_context, espnDataWF] at *
  cases hed : lookupD pd "espn_data" (.vdict []) with
  | vdict d0 =>
    simp only [hed] at h ⊢
    cases htm : dlookup d0 "team" with
    | none =>
      simp only [htm, bind, Except.bind, pyGetD, Option.getD_none, dlookup,
        Option.getD_some, Val.truthy, teamContextBody_attrError]
      simp [pure, Except.pure]
    | some tv =>
      cases tv with
      | vdict d1 =>
        simp only [htm, bind, Except.bind, pyGetD, Option.getD_some,
          teamContextBody_attrError]
        cases htr : ((dlookup d1 "id").getD Val.vnull).truthy with
        | false => simp [htr, pure, Except.pure]
        | true =>
          cases het : (lookupD pd "espn_id" Val.vnull).truthy with
          | false => simp [htr, het, pure, Except.pure]
          | true => simp [htr, het, pure, Except.pure, teamContextBody_attrError]
      | vnull => simp only [htm] at h; simp at h
      | vbool b => simp only [htm] at h; simp at h
      | vnum n => simp only [htm] at h; simp at h
      | vstr s => simp only [htm] at h; simp at h
      | vlist l => simp only [htm] at h; simp at h
  | vnull => simp only [hed] at h; simp at h
  | vbool b => simp only [hed] at h; simp at h
  | vnum n => simp only [hed] at h; simp at h
  | vstr s => simp only [hed] at h; simp at h
  | vlist l => simp only [hed] at h; simp at h

/-- Witness for C3 on the concrete KC subject record, in an environment where
the Sleeper provider does list an injured teammate. -/
theorem C3_witness :
    espnDataWF kcSubjectRecord = true
    ∧ (hybrid_get_team_context kcEnv ⟨⟨[]⟩, ⟨none⟩⟩ kcSubjectRecord
        = .ok (fallbackContext, ⟨⟨[]⟩, ⟨none⟩⟩, [])
      ∧ espnServiceMethods.contains "get_team_context" = false
      ∧ (match fallbackContext with
         | .vdict d => dlookup d "injured_teammates"
         | _ => none) = some (.vlist [])) :=
  ⟨by decide, C3_team_context_always_fallback kcEnv ⟨⟨[]⟩, ⟨none⟩⟩ kcSubjectRecord (by decide)⟩

/-! ## Characterizing the ESPN search -/

theorem mkTeamInfo_ok_shape (tid tab team tinfo : Val)
    (h : mkTeamInfo tid tab team = .ok tinfo) : teamInfoShape tinfo := by
  rw [mkTeamInfo] at h
  cases team with
  | vdict d =>
    simp only [bind, Except.bind, pyGetD, pure, Except.pure, Except.ok.injEq] at h
    exact ⟨tid, tab, _, h.symm⟩
  | vnull => simp [bind, Except.bind, pyGetD] at h
  | vbool b => simp [bind, Except.bind, pyGetD] at h
  | vnum n => simp [bind, Except.bind, pyGetD] at h
  | vstr s => simp [bind, Except.bind, pyGetD] at h
  | vlist l => simp [bind, Except.bind, pyGetD] at h

/-- Any athlete the roster scan returns is an element of the roster passing
the candidate test, with the team info written in. -/
theorem scanRoster_some (q : String) (tid tab team : Val) (l : List Val) (a' : Val)
    (h : scanRoster q tid tab team l = .ok (some a')) :
    ∃ a ∈ l, espnCandidateTest q a = true
      ∧ ∃ tinfo, mkTeamInfo tid tab team = .ok tinfo ∧ a' = setTeamOn tinfo a := by
  induction l with
  | nil => simp [scanRoster] at h
  | cons a rest ih =>
    rw [scanRoster] at h
    cases hskip : (a.truthy && a.isDict) with
    | false =>
      simp only [hskip, Bool.not_false, if_true] at h
      obtain ⟨b, hb, hbt, hrest⟩ := ih h
      exact ⟨b, List.mem_cons_of_mem _ hb, hbt, hrest⟩
    | true =>
      simp only [hskip, Bool.not_true, Bool.false_eq_true, if_false] at h
      cases a with
      | vdict d =>
        simp only [bind, Except.bind, pyGetD] at h
        cases hdn : (dlookup d "displayName").getD (.vstr "") with
        | vstr s =>
          simp only [hdn, valLower] at h
          by_cases hne : strLower s = ""
          case pos =>
            simp only [if_pos hne] at h
            obtain ⟨b, hb, hbt, hrest⟩ := ih h
            exact ⟨b, List.mem_cons_of_mem _ hb, hbt, hrest⟩
          case neg =>
            simp only [if_neg hne] at h
            cases hct : (substrOf q (strLower s) || substrOf (strLower s) q) with
            | false =>
              simp only [hct, Bool.false_eq_true, if_false] at h
              obtain ⟨b, hb, hbt, hrest⟩ := ih h
              exact ⟨b, List.mem_cons_of_mem _ hb, hbt, hrest⟩
            | true =>
              simp only [hct, if_true] at h
              cases hmk : mkTeamInfo tid tab team with
              | error e => simp [hmk] at h
              | ok tinfo =>
                simp only [hmk, pure, Except.pure, Except.ok.injEq, Option.some.injEq] at h
                refine ⟨.vdict d, List.mem_cons_self _ _, ?_, tinfo, rfl, h.symm⟩
                simp only [espnCandidateTest, hdn]
                simp only [Bool.and_eq_true] at hskip
                rw [hskip.1, hskip.2]
                simp only [Bool.true_and, Bool.and_eq_true, bne_iff_ne, ne_eq]
                exact ⟨hne, hct⟩
        | vnull => simp [hdn, valLower] at h
        | vbool b => simp [hdn, valLower] at h
        | vnum n => simp [hdn, valLower] at h
        | vlist ll => simp [hdn, valLower] at h
        | vdict dd => simp [hdn, valLower] at h
      | vnull => simp [Val.truthy, Val.isDict] at hskip
      | vbool b => simp [Val.truthy, Val.isDict] at hskip
      | vnum n => simp [Val.truthy, Val.isDict] at hskip
      | vstr s => simp [Val.truthy, Val.isDict] at hskip
      | vlist ll => simp [Val.truthy, Val.isDict] at hskip

theorem find_cons_neg {A : Type} (p : A → Bool) (a : A) (l : List A)
    (h : p a = false) : List.find? p (a :: l) = List.find? p l := by
  simp [List.find?, h]

theorem find_cons_pos {A : Type} (p : A → Bool) (a : A) (l : List A)
    (h : p a = true) : List.find? p (a :: l) = some a := by
  simp [List.find?, h]

theorem espnCandidateTest_shape (q : String) (a : Val)
    (h : espnCandidateTest q a = true) : ∃ d, a = .vdict d ∧ d ≠ [] := by
  cases a with
  | vdict d =>
    refine ⟨d, rfl, ?_⟩
    intro hnil
    subst hnil
    simp [espnCandidateTest, Val.truthy] at h
  | vnull => simp [espnCandidateTest, Val.isDict] at h
  | vbool b => simp [espnCandidateTest, Val.isDict] at h
  | vnum n => simp [espnCandidateTest, Val.isDict] at h
  | vstr s => simp [espnCandidateTest, Val.isDict] at h
  | vlist l => simp [espnCandidateTest, Val.isDict] at h

/-- With well-typed display names the roster scan is exactly a first-match
search: it returns the first entry passing the candidate test, with the team
info written in, and nothing else. -/
theorem scanRoster_eq_find (q : String) (tid tab team tinfo : Val)
    (ht : mkTeamInfo tid tab team = .ok tinfo) (l : List Val)
    (h : ∀ a ∈ l, athleteNameOk a = true) :
    scanRoster q tid tab team l
      = .ok ((l.find? (espnCandidateTest q)).map (setTeamOn tinfo)) := by
  induction l with
  | nil => simp [scanRoster]
  | cons a rest ih =>
    have ha := h a (List.mem_cons_self _ _)
    have hrest : ∀ b ∈ rest, athleteNameOk b = true :=
      fun b hb => h b (List.mem_cons_of_mem _ hb)
    rw [scanRoster]
    cases hskip : (a.truthy && a.isDict) with
    | false =>
      have htest : espnCandidateTest q a = false := by
        simp only [espnCandidateTest, hskip, Bool.false_and]
      rw [find_cons_neg _ _ _ htest, ih hrest]
      simp [hskip]
    | true =>
      simp only [hskip, Bool.not_true, Bool.false_eq_true, if_false]
      cases a with
      | vdict d =>
        simp only [bind, Except.bind, pyGetD]
        cases hdn : (dlookup d "displayName").getD (.vstr "") with
        | vstr s =>
          simp only [hdn, valLower]
          by_cases hne : strLower s = ""
          case pos =>
            have htest : espnCandidateTest q (.vdict d) = false := by
              simp only [espnCandidateTest, hdn, hne]
              simp
            rw [find_cons_neg _ _ _ htest, if_pos hne, ih hrest]
          case neg =>
            simp only [if_neg hne]
            cases hct : (substrOf q (strLower s) || substrOf (strLower s) q) with
            | false =>
              have htest : espnCandidateTest q (.vdict d) = false := by
                simp only [espnCandidateTest, hdn, hct]
                simp
              rw [find_cons_neg _ _ _ htest]
              simp only [hct, Bool.false_eq_true, if_false, ih hrest]
            | true =>
              have htest : espnCandidateTest q (.vdict d) = true := by
                simp only [espnCandidateTest, hdn]
                simp only [Bool.and_eq_true] at hskip
                rw [hskip.1, hskip.2]
                simp only [Bool.true_and, Bool.and_eq_true, bne_iff_ne, ne_eq]
                exact ⟨hne, hct⟩
              rw [find_cons_pos _ _ _ htest]
              simp only [hct, if_true, ht, bind, Except.bind, pure, Except.pure]
              rfl
        | vnull =>
          exfalso
          simp only [athleteNameOk] at ha
          cases hlk : dlookup d "displayName" with
          | none => rw [hlk] at hdn; simp [Option.getD] at hdn
          | some v =>
            rw [hlk] at ha hdn
            simp only [Option.getD_some] at hdn
            subst hdn
            simp at ha
        | vbool b =>
          exfalso
          simp only [athleteNameOk] at ha
          cases hlk : dlookup d "displayName" with
          | none => rw [hlk] at hdn; simp [Option.getD] at hdn
          | some v =>
            rw [hlk] at ha hdn
            simp only [Option.getD_some] at hdn
            subst hdn
            simp at ha
        | vnum n =>
          exfalso
          simp only [athleteNameOk] at ha
          cases hlk : dlookup d "displayName" with
          | none => rw [hlk] at hdn; simp [Option.getD] at hdn
          | some v =>
            rw [hlk] at ha hdn
            simp only [Option.getD_some] at hdn
            subst hdn
            simp at ha
        | vlist ll =>
          exfalso
          simp only [athleteNameOk] at ha
          cases hlk : dlookup d "displayName" with
          | none => rw [hlk] at hdn; simp [Option.getD] at hdn
          | some v =>
            rw [hlk] at ha hdn
            simp only [Option.getD_some] at hdn
            subst hdn
            simp at ha
        | vdict dd =>
          exfalso
          simp only [athleteNameOk] at ha
          cases hlk : dlookup d "displayName" with
          | none => rw [hlk] at hdn; simp [Option.getD] at hdn
          | some v =>
            rw [hlk] at ha hdn
            simp only [Option.getD_some] at hdn
            subst hdn
            simp at ha
      | vnull => simp [Val.truthy, Val.isDict] at hskip
      | vbool b => simp [Val.truthy, Val.isDict] at hskip
      | vnum n => simp [Val.truthy, Val.isDict] at hskip
      | vstr s => simp [Val.truthy, Val.isDict] at hskip
      | vlist ll => simp [Val.truthy, Val.isDict] at hskip

/-! ## Characterizing the Sleeper name search -/

/-- With well-typed entries the Sleeper scan is exactly a first-match search
over the players dict in iteration order. -/
theorem sleeperScan_eq_find (q : String) (entries : List (String × Val))
    (h : ∀ p ∈ entries, sleeperEntryWF p = true) :
    sleeperScan q entries
      = .ok ((entries.find? (sleeperCandidateTest q)).map setSleeperIdOn) := by
  induction entries with
  | nil => simp [sleeperScan]
  | cons p rest ih =>
    obtain ⟨sid, pd⟩ := p
    have hp := h _ (List.mem_cons_self _ _)
    have hrest : ∀ b ∈ rest, sleeperEntryWF b = true :=
      fun b hb => h b (List.mem_cons_of_mem _ hb)
    cases pd with
    | vdict d =>
      rw [sleeperScan]
      cases hfn : dlookup d "full_name" with
      | none =>
        have hdef : lookupD d "full_name" (.vstr "") = .vstr "" := by
          simp [lookupD, hfn]
        simp only [hdef, bind, Except.bind, valLower]
        have hlow : strLower "" = "" := by decide
        have htest : sleeperCandidateTest q (sid, .vdict d) = true := by
          simp only [sleeperCandidateTest, hfn, Option.getD_none]
          rw [hlow]
          have : substrOf "" q = true := by
            rw [substrOf]
            cases hq : q.toList with
            | nil => simp [charsInfixOf]
            | cons c cs => simp [charsInfixOf, List.isPrefixOf]
          simp [this]
        rw [find_cons_pos _ _ _ htest]
        simp only [hlow]
        have : substrOf "" q = true := by
          rw [substrOf]
          cases hq : q.toList with
          | nil => simp [charsInfixOf]
          | cons c cs => simp [charsInfixOf, List.isPrefixOf]
        simp only [this, Bool.or_true, if_true, pure, Except.pure]
        rfl
      | some v =>
        cases v with
        | vstr s =>
          have hdef : lookupD d "full_name" (.vstr "") = .vstr s := by
            simp [lookupD, hfn]
          simp only [hdef, bind, Except.bind, valLower]
          cases hct : (substrOf q (strLower s) || substrOf (strLower s) q) with
          | true =>
            have htest : sleeperCandidateTest q (sid, .vdict d) = true := by
              simp only [sleeperCandidateTest, hfn, Option.getD_some, hct]
            rw [find_cons_pos _ _ _ htest]
            simp only [hct, if_true, pure, Except.pure]
            rfl
          | false =>
            have htest : sleeperCandidateTest q (sid, .vdict d) = false := by
              simp only [sleeperCandidateTest, hfn, Option.getD_some, hct]
            rw [find_cons_neg _ _ _ htest]
            simp only [hct, Bool.false_eq_true, if_false]
            exact ih hrest
        | vnull => simp [sleeperEntryWF, hfn] at hp
        | vbool b => simp [sleeperEntryWF, hfn] at hp
        | vnum n => simp [sleeperEntryWF, hfn] at hp
        | vlist l => simp [sleeperEntryWF, hfn] at hp
        | vdict dd => simp [sleeperEntryWF, hfn] at hp
    | vnull => simp [sleeperEntryWF] at hp
    | vbool b => simp [sleeperEntryWF] at hp
    | vnum n => simp [sleeperEntryWF] at hp
    | vstr s => simp [sleeperEntryWF] at hp
    | vlist l => simp [sleeperEntryWF] at hp

/-- Any entry the Sleeper scan returns is a dict. -/
theorem sleeperScan_some_shape (q : String) (entries : List (String × Val)) (sp : Val)
    (h : sleeperScan q entries = .ok (some sp)) : ∃ d, sp = .vdict d := by
  induction entries with
  | nil => simp [sleeperScan] at h
  | cons p rest ih =>
    obtain ⟨sid, pd⟩ := p
    cases pd with
    | vdict d =>
      rw [sleeperScan] at h
      cases hfn : lookupD d "full_name" (.vstr "") with
      | vstr s =>
        simp only [hfn, bind, Except.bind, valLower] at h
        cases hct : (substrOf q (strLower s) || substrOf (strLower s) q) with
        | true =>
          simp only [hct, if_true, pure, Except.pure, Except.ok.injEq,
            Option.some.injEq] at h
          exact ⟨_, h.symm⟩
        | false =>
          simp only [hct, Bool.false_eq_true, if_false] at h
          exact ih h
      | vnull => simp [hfn, bind, Except.bind, valLower] at h
      | vbool b => simp [hfn, bind, Except.bind, valLower] at h
      | vnum n => simp [hfn, bind, Except.bind, valLower] at h
      | vlist l => simp [hfn, bind, Except.bind, valLower] at h
      | vdict dd => simp [hfn, bind, Except.bind, valLower] at h
    | vnull => simp [sleeperScan] at h
    | vbool b => simp [sleeperScan] at h
    | vnum n => simp [sleeperScan] at h
    | vstr s => simp [sleeperScan] at h
    | vlist l => simp [sleeperScan] at h

/-- get_player_by_name never raises. -/
theorem get_player_by_name_ok (env : FetchEnv) (sst : SleeperState) (name : String) :
    ∃ r, get_player_by_name env sst name = .ok r := by
  rw [get_player_by_name]
  cases hga : get_all_players env sst with
  | mk players rest =>
    obtain ⟨st', log⟩ := rest
    dsimp only
    cases players with
    | vdict entries =>
      dsimp only
      cases hs : sleeperScan (strTrim (strLower name)) entries with
      | ok r => exact ⟨_, rfl⟩
      | error e => exact ⟨_, rfl⟩
    | vnull => exact ⟨_, rfl⟩
    | vbool b => exact ⟨_, rfl⟩
    | vnum n => exact ⟨_, rfl⟩
    | vstr s => exact ⟨_, rfl⟩
    | vlist l => exact ⟨_, rfl⟩

/-- When get_player_by_name finds an entry, the entry is a dict. -/
theorem get_player_by_name_some_shape (env : FetchEnv) (sst : SleeperState)
    (name : String) (sp : Val) (sst' : SleeperState) (log : Log)
    (h : get_player_by_name env sst name = .ok (some sp, sst', log)) :
    ∃ d, sp = .vdict d := by
  rw [get_player_by_name] at h
  cases hga : get_all_players env sst with
  | mk players rest =>
    obtain ⟨st1, lg1⟩ := rest
    rw [hga] at h
    dsimp only at h
    cases players with
    | vdict entries =>
      dsimp only at h
      cases hs : sleeperScan (strTrim (strLower name)) entries with
      | ok r =>
        rw [hs] at h
        simp only [Except.ok.injEq, Prod.mk.injEq] at h
        obtain ⟨hr, _, _⟩ := h
        subst hr
        exact sleeperScan_some_shape _ _ _ hs
      | error e => rw [hs] at h; simp at h
    | vnull => simp at h
    | vbool b => simp at h
    | vnum n => simp at h
    | vstr s => simp at h
    | vlist l => simp at h

/-- C9 helper: the full Sleeper find-by-name equals a first-match search over
the players dict. -/
theorem get_player_by_name_eq_find (env : FetchEnv) (sst : SleeperState)
    (name : String) (entries : List (String × Val)) (sst' : SleeperState) (log : Log)
    (hga : get_all_players env sst = (.vdict entries, sst', log))
    (h : ∀ p ∈ entries, sleeperEntryWF p = true) :
    get_player_by_name env sst name
      = .ok ((entries.find? (sleeperCandidateTest (strTrim (strLower name)))).map
              setSleeperIdOn, sst', log) := by
  rw [get_player_by_name, hga]
  dsimp only
  rw [sleeperScan_eq_find _ _ h]

/-! ## Provenance of ESPN search results -/

theorem cacheSub_empty (env : FetchEnv) : CacheSub env ⟨[]⟩ := by
  intro p hp
  simp at hp

theorem getTeamRoster_fetched (env : FetchEnv) (st : ESPNState) (tid : Val)
    (ropt : Option (List Val)) (st1 : ESPNState) (lg : Log)
    (inv : CacheSub env st)
    (h : getTeamRoster env st tid = .ok (ropt, st1, lg)) :
    CacheSub env st1 ∧ ∀ l, ropt = some l → ∀ a ∈ l, EnvFetched env a := by
  by_cases hh : tid.hashable = true
  · rw [getTeamRoster] at h
    simp only [hh, Bool.not_true, Bool.false_eq_true, if_false] at h
    cases hlk : rosterLookup st.teamRosters tid with
    | some r =>
      simp only [hlk, Except.ok.injEq, Prod.mk.injEq] at h
      obtain ⟨hr, hst, _⟩ := h
      cases hr
      cases hst
      refine ⟨inv, ?_⟩
      intro l hl a ha
      cases hl
      exact inv _ (rosterLookup_mem _ _ _ hlk) a ha
    | none =>
      simp only [hlk] at h
      cases hrk : env.roster tid with
      | error e =>
        simp only [hrk, Except.ok.injEq, Prod.mk.injEq] at h
        obtain ⟨hr, hst, _⟩ := h
        cases hst
        refine ⟨inv, ?_⟩
        intro l hl
        rw [← hr] at hl
        simp at hl
      | ok data =>
        simp only [hrk] at h
        cases hp : parseRosterAthletes data with
        | error e =>
          simp only [hp, Except.ok.injEq, Prod.mk.injEq] at h
          obtain ⟨hr, hst, _⟩ := h
          cases hst
          refine ⟨inv, ?_⟩
          intro l hl
          rw [← hr] at hl
          simp at hl
        | ok athletes =>
          simp only [hp, Except.ok.injEq, Prod.mk.injEq] at h
          obtain ⟨hr, hst, _⟩ := h
          have hfetched : ∀ a ∈ athletes, EnvFetched env a := by
            intro a ha
            exact ⟨tid, data, hrk, by rw [rosterAthletesOfData, hp]; exact ha⟩
          constructor
          · rw [← hst]
            intro p hp2 a ha
            rcases List.mem_append.mp hp2 with hold | hnew
            · exact inv _ hold a ha
            · simp only [List.mem_singleton] at hnew
              cases hnew
              exact hfetched a ha
          · intro l hl a ha
            rw [← hr] at hl
            cases hl
            exact hfetched a ha
  · rw [getTeamRoster] at h
    simp only [Bool.not_eq_true] at hh
    simp [hh] at h

/-- Soundness of the search loop: it preserves the cache invariant, and any
athlete it returns came from some environment roster, passed the candidate
test against the normalized query, and carries an injected team info dict. -/
theorem searchLoop_sound (env : FetchEnv) (q : String) (ts : List Val) :
    ∀ (st : ESPNState) (log0 : Log) (res : Except PyErr (Option Val))
      (st' : ESPNState) (log' : Log),
      searchLoop env q ts st log0 = (res, st', log') → CacheSub env st →
      CacheSub env st' ∧
        (∀ a', res = .ok (some a') →
          ∃ a, EnvFetched env a ∧ espnCandidateTest q a = true ∧
            ∃ tinfo, teamInfoShape tinfo ∧ a' = setTeamOn tinfo a) := by
  induction ts with
  | nil =>
    intro st log0 res st' log' h inv
    rw [searchLoop] at h
    simp only [Prod.mk.injEq] at h
    obtain ⟨hres, hst, _⟩ := h
    cases hst
    refine ⟨inv, ?_⟩
    intro a' ha'
    rw [← hres] at ha'
    simp at ha'
  | cons team rest ih =>
    intro st log0 res st' log' h inv
    rw [searchLoop] at h
    cases hid : pyGetD team "id" .vnull with
    | error e =>
      simp only [hid, Prod.mk.injEq] at h
      obtain ⟨hres, hst, _⟩ := h
      cases hst
      refine ⟨inv, ?_⟩
      intro a' ha'
      rw [← hres] at ha'
      simp at ha'
    | ok team_id =>
      simp only [hid] at h
      cases hab : pyGetD team "abbreviation" (.vstr "UNK") with
      | error e =>
        simp only [hab, Prod.mk.injEq] at h
        obtain ⟨hres, hst, _⟩ := h
        cases hst
        refine ⟨inv, ?_⟩
        intro a' ha'
        rw [← hres] at ha'
        simp at ha'
      | ok team_abbr =>
        simp only [hab] at h
        cases hrt : getTeamRoster env st team_id with
        | error e =>
          simp only [hrt, Prod.mk.injEq] at h
          obtain ⟨hres, hst, _⟩ := h
          cases hst
          refine ⟨inv, ?_⟩
          intro a' ha'
          rw [← hres] at ha'
          simp at ha'
        | ok rr =>
          obtain ⟨ropt, st1, l1⟩ := rr
          obtain ⟨inv1, hfetch⟩ := getTeamRoster_fetched env st team_id ropt st1 l1 inv hrt
          simp only [hrt] at h
          cases ropt with
          | none => exact ih st1 _ res st' log' h inv1
          | some roster =>
            simp only at h
            by_cases hemp : roster.isEmpty = true
            case pos =>
              rw [if_pos hemp] at h
              exact ih st1 _ res st' log' h inv1
            case neg =>
              rw [if_neg hemp] at h
              cases hscan : scanRoster q team_id team_abbr team roster with
              | error e =>
                simp only [hscan, Prod.mk.injEq] at h
                obtain ⟨hres, hst, _⟩ := h
                cases hst
                refine ⟨inv1, ?_⟩
                intro a' ha'
                rw [← hres] at ha'
                simp at ha'
              | ok sopt =>
                cases sopt with
                | none =>
                  simp only [hscan] at h
                  exact ih st1 _ res st' log' h inv1
                | some athlete =>
                  simp only [hscan, Prod.mk.injEq] at h
                  obtain ⟨hres, hst, _⟩ := h
                  cases hst
                  refine ⟨inv1, ?_⟩
                  intro a' ha'
                  rw [← hres] at ha'
                  simp only [Except.ok.injEq, Option.some.injEq] at ha'
                  cases ha'
                  obtain ⟨a, hmem, htest, tinfo, hmk, hset⟩ :=
                    scanRoster_some q team_id team_abbr team roster athlete hscan
                  exact ⟨a, hfetch roster rfl a hmem, htest, tinfo,
                    mkTeamInfo_ok_shape _ _ _ _ hmk, hset⟩

/-- The search loop never returns a raise to its caller in a shape other
than error or option, and any found athlete is a non-empty dict. -/
theorem searchLoop_some_shape (env : FetchEnv) (q : String) (ts : List Val) :
    ∀ (st : ESPNState) (log0 : Log) (a' : Val) (st' : ESPNState) (log' : Log),
      searchLoop env q ts st log0 = (.ok (some a'), st', log') →
      ∃ d, a' = .vdict d ∧ d ≠ [] := by
  induction ts with
  | nil =>
    intro st log0 a' st' log' h
    rw [searchLoop] at h
    simp at h
  | cons team rest ih =>
    intro st log0 a' st' log' h
    rw [searchLoop] at h
    cases hid : pyGetD team "id" .vnull with
    | error e => simp [hid] at h
    | ok team_id =>
      simp only [hid] at h
      cases hab : pyGetD team "abbreviation" (.vstr "UNK") with
      | error e => simp [hab] at h
      | ok team_abbr =>
        simp only [hab] at h
        cases hrt : getTeamRoster env st team_id with
        | error e => simp [hrt] at h
        | ok rr =>
          obtain ⟨ropt, st1, l1⟩ := rr
          simp only [hrt] at h
          cases ropt with
          | none => exact ih st1 _ a' st' log' h
          | some roster =>
            simp only at h
            by_cases hemp : roster.isEmpty = true
            case pos =>
              rw [if_pos hemp] at h
              exact ih st1 _ a' st' log' h
            case neg =>
              rw [if_neg hemp] at h
              cases hscan : scanRoster q team_id team_abbr team roster with
              | error e => simp [hscan] at h
              | ok sopt =>
                cases sopt with
                | none =>
                  simp only [hscan] at h
                  exact ih st1 _ a' st' log' h
                | some athlete =>
                  simp only [hscan, Prod.mk.injEq] at h
                  obtain ⟨hres, _, _⟩ := h
                  simp only [Except.ok.injEq, Option.some.injEq] at hres
                  obtain ⟨a, _, htest, tinfo, _, hset⟩ :=
                    scanRoster_some q team_id team_abbr team roster athlete hscan
                  obtain ⟨d, hd, _⟩ := espnCandidateTest_shape q a htest
                  subst hd
                  refine ⟨dset d "team" tinfo, ?_, dset_ne_nil _ _ _⟩
                  rw [← hres, hset]
                  rfl

/-- ESPNService.search_player never raises: every outcome (teams failure,
scan failure, no match, match) produces a returned record. -/
theorem search_player_ok (env : FetchEnv) (st : ESPNState) (q : String) :
    ∃ r, search_player env st q = .ok r := by
  rw [search_player]
  cases hteams : getAllTeams env with
  | mk teams log0 =>
    dsimp only
    by_cases hemp : teams.isEmpty = true
    case pos => rw [if_pos hemp]; exact ⟨_, rfl⟩
    case neg =>
      rw [if_neg hemp]
      cases hloop : searchLoop env (strTrim (strLower q)) teams st log0 with
      | mk res rest2 =>
        obtain ⟨st', log'⟩ := rest2
        cases res with
        | error e => exact ⟨_, rfl⟩
        | ok sopt =>
          cases sopt with
          | none => exact ⟨_, rfl⟩
          | some athlete => exact ⟨_, rfl⟩

/-- Every record search_player returns is a non-empty dict. -/
theorem search_player_result_shape (env : FetchEnv) (st : ESPNState) (q : String)
    (r : Val) (st' : ESPNState) (log : Log)
    (h : search_player env st q = .ok (r, st', log)) :
    ∃ d, r = .vdict d ∧ d ≠ [] := by
  rw [search_player] at h
  cases hteams : getAllTeams env with
  | mk teams log0 =>
    rw [hteams] at h
    dsimp only at h
    by_cases hemp : teams.isEmpty = true
    case pos =>
      rw [if_pos hemp] at h
      simp only [Except.ok.injEq, Prod.mk.injEq] at h
      obtain ⟨hr, _, _⟩ := h
      exact ⟨_, hr.symm, by simp [createFallbackPlayer]⟩
    case neg =>
      rw [if_neg hemp] at h
      cases hloop : searchLoop env (strTrim (strLower q)) teams st log0 with
      | mk res rest2 =>
        obtain ⟨st1, log1⟩ := rest2
        rw [hloop] at h
        cases res with
        | error e =>
          simp only [Except.ok.injEq, Prod.mk.injEq] at h
          obtain ⟨hr, _, _⟩ := h
          exact ⟨_, hr.symm, by simp [createFallbackPlayer]⟩
        | ok sopt =>
          cases sopt with
          | none =>
            simp only [Except.ok.injEq, Prod.mk.injEq] at h
            obtain ⟨hr, _, _⟩ := h
            exact ⟨_, hr.symm, by simp [createFallbackPlayer]⟩
          | some athlete =>
            simp only [Except.ok.injEq, Prod.mk.injEq] at h
            obtain ⟨hr, _, _⟩ := h
            obtain ⟨d, hd, hne⟩ := searchLoop_some_shape env _ teams st log0
              athlete st1 log1 hloop
            exact ⟨d, by rw [← hr, hd], hne⟩

/-- Case analysis on a search result: either the synthesized fallback record,
or a roster athlete of the environment that passed the containment test, with
the team info written in. -/
theorem search_player_characterize (env : FetchEnv) (st : ESPNState) (q : String)
    (r : Val) (st' : ESPNState) (log : Log)
    (inv : CacheSub env st)
    (h : search_player env st q = .ok (r, st', log)) :
    r = createFallbackPlayer q ∨
      (∃ a, EnvFetched env a ∧ espnCandidateTest (strTrim (strLower q)) a = true ∧
        ∃ tinfo, teamInfoShape tinfo ∧ r = setTeamOn tinfo a) := by
  rw [search_player] at h
  cases hteams : getAllTeams env with
  | mk teams log0 =>
    rw [hteams] at h
    dsimp only at h
    by_cases hemp : teams.isEmpty = true
    case pos =>
      rw [if_pos hemp] at h
      simp only [Except.ok.injEq, Prod.mk.injEq] at h
      exact Or.inl h.1.symm
    case neg =>
      rw [if_neg hemp] at h
      cases hloop : searchLoop env (strTrim (strLower q)) teams st log0 with
      | mk res rest2 =>
        obtain ⟨st1, log1⟩ := rest2
        rw [hloop] at h
        cases res with
        | error e =>
          simp only [Except.ok.injEq, Prod.mk.injEq] at h
          exact Or.inl h.1.symm
        | ok sopt =>
          cases sopt with
          | none =>
            simp only [Except.ok.injEq, Prod.mk.injEq] at h
            exact Or.inl h.1.symm
          | some athlete =>
            simp only [Except.ok.injEq, Prod.mk.injEq] at h
            obtain ⟨hr, _, _⟩ := h
            obtain ⟨_, hsound⟩ := searchLoop_sound env (strTrim (strLower q)) teams
              st log0 (.ok (some athlete)) st1 log1 hloop inv
            obtain ⟨a, hf, ht, tinfo, hshape, hset⟩ := hsound athlete rfl
            exact Or.inr ⟨a, hf, ht, tinfo, hshape, by rw [← hr, hset]⟩

theorem vdict_truthy (d : List (String × Val)) (hne : d ≠ []) :
    (Val.vdict d).truthy = true := by
  cases d with
  | nil => exact absurd rfl hne
  | cons p rest => simp [Val.truthy]

/-! ## C10 -/

/-- C10: search_player always returns a truthy (non-empty) dict, never none
and never a raise; hence the not-found guard of the analyze route is never
taken, and get_complete_player_data never takes its early none return. -/
theorem C10_search_total_notfound_unreachable (env : FetchEnv) (st : ESPNState)
    (hst : HState) (q : String) :
    (∃ r st' log, search_player env st q = .ok (r, st', log)
       ∧ r.truthy = true ∧ r.isDict = true)
    ∧ analyzeNotFoundBranch env st q = false
    ∧ (∀ o st2 log, get_complete_player_data env hst q = .ok (o, st2, log) → o ≠ none) := by
  obtain ⟨⟨r, st', log⟩, hsp⟩ := search_player_ok env st q
  obtain ⟨d, hd, hne⟩ := search_player_result_shape env st q r st' log hsp
  have htr : r.truthy = true := by rw [hd]; exact vdict_truthy d hne
  refine ⟨⟨r, st', log, hsp, htr, by rw [hd]; rfl⟩, ?_, ?_⟩
  · rw [analyzeNotFoundBranch, hsp]
    dsimp only
    rw [htr]
    rfl
  · intro o st2 lg h
    rw [get_complete_player_data] at h
    cases hsp2 : search_player env hst.espn q with
    | error e => simp [hsp2, bind, Except.bind] at h
    | ok trip =>
      obtain ⟨r2, est', lg1⟩ := trip
      obtain ⟨d2, hd2, hne2⟩ := search_player_result_shape env hst.espn q r2 est' lg1 hsp2
      have htr2 : r2.truthy = true := by rw [hd2]; exact vdict_truthy d2 hne2
      simp only [hsp2, bind, Except.bind] at h
      rw [htr2] at h
      simp only [Bool.not_true, Bool.false_eq_true, if_false] at h
      subst hd2
      simp only [pyGetD] at h
      cases hpos : (dlookup d2 "position").getD (.vdict []) with
      | vdict dp =>
        simp only [hpos] at h
        cases hteam : (dlookup d2 "team").getD (.vdict []) with
        | vdict dt =>
          simp only [hteam] at h
          cases hgp : get_player_by_name env hst.sleeper q with
          | error e => rw [hgp] at h; simp at h
          | ok trip2 =>
            obtain ⟨spOpt, sst', lg2⟩ := trip2
            rw [hgp] at h
            simp only at h
            cases spOpt with
            | none =>
              simp only [pure, Except.pure, Except.ok.injEq, Prod.mk.injEq] at h
              rw [← h.1]
              simp
            | some sp =>
              cases sp with
              | vdict dsp =>
                simp only [pure, Except.pure, Except.ok.injEq, Prod.mk.injEq] at h
                rw [← h.1]
                simp
              | vnull => simp at h
              | vbool b => simp at h
              | vnum n => simp at h
              | vstr s => simp at h
              | vlist l => simp at h
        | vnull => simp only [hteam] at h; simp at h
        | vbool b => simp only [hteam] at h; simp at h
        | vnum n => simp only [hteam] at h; simp at h
        | vstr s => simp only [hteam] at h; simp at h
        | vlist l => simp only [hteam] at h; simp at h
      | vnull => simp only [hpos] at h; simp at h
      | vbool b => simp only [hpos] at h; simp at h
      | vnum n => simp only [hpos] at h; simp at h
      | vstr s => simp only [hpos] at h; simp at h
      | vlist l => simp only [hpos] at h; simp at h

/-! ## C4 -/

/-- Counterexample to C4 as stated: on a query that is not already
title-cased and has no containment match, the fallback keeps the query
verbatim, which differs from its title-casing; and the record does carry an
id, the sentinel string fallback. -/
theorem C4_counterexample :
    search_player kcEnv ⟨[]⟩ "zzz nobody"
      = .ok (createFallbackPlayer "zzz nobody",
             ⟨[(.vstr "1", [kcMahomesAthlete])]⟩, [.teams, .roster (.vstr "1")])
    ∧ (match createFallbackPlayer "zzz nobody" with
       | .vdict d => dlookup d "displayName"
       | _ => none) = some (.vstr "zzz nobody")
    ∧ spec_titleCase "zzz nobody" = "Zzz Nobody"
    ∧ ("zzz nobody" : String) ≠ "Zzz Nobody"
    ∧ (match createFallbackPlayer "zzz nobody" with
       | .vdict d => dlookup d "id"
       | _ => none) = some (.vstr "fallback") := by
  refine ⟨by decide, by decide, by decide, by decide, by decide⟩

/-- C4 (amended): when no environment athlete passes the containment test
for the query, search_player returns exactly the synthesized fallback record,
whose displayName is the query verbatim (not title-cased), whose position and
team carry the sentinels PLAYER and NFL, and whose id field holds the
sentinel string fallback rather than a provider id. -/
theorem C4_fallback_record_amended (env : FetchEnv) (st : ESPNState) (q : String)
    (inv : CacheSub env st)
    (hnm : ∀ a, EnvFetched env a → espnCandidateTest (strTrim (strLower q)) a = false) :
    ∃ st' log, search_player env st q = .ok (createFallbackPlayer q, st', log)
      ∧ pyGetD (createFallbackPlayer q) "displayName" .vnull = .ok (.vstr q)
      ∧ pyGetD (createFallbackPlayer q) "position" .vnull
          = .ok (.vdict [("abbreviation", .vstr "PLAYER")])
      ∧ pyGetD (createFallbackPlayer q) "team" .vnull
          = .ok (.vdict [("abbreviation", .vstr "NFL"), ("id", .vstr "0")])
      ∧ pyGetD (createFallbackPlayer q) "id" .vnull = .ok (.vstr "fallback") := by
  obtain ⟨⟨r, st', log⟩, hsp⟩ := search_player_ok env st q
  rcases search_player_characterize env st q r st' log inv hsp with hfb | ⟨a, hf, ht, _⟩
  · subst hfb
    exact ⟨st', log, hsp, rfl, rfl, rfl, rfl⟩
  · rw [hnm a hf] at ht
    exact absurd ht (by simp)

/-- Witness for C4 at the concrete KC environment and an unmatched query. -/
theorem C4_witness :
    (∀ a, EnvFetched kcEnv a →
      espnCandidateTest (strTrim (strLower "zzz nobody")) a = false)
    ∧ (∃ st' log, search_player kcEnv ⟨[]⟩ "zzz nobody"
        = .ok (createFallbackPlayer "zzz nobody", st', log)
      ∧ pyGetD (createFallbackPlayer "zzz nobody") "displayName" .vnull
          = .ok (.vstr "zzz nobody")
      ∧ pyGetD (createFallbackPlayer "zzz nobody") "position" .vnull
          = .ok (.vdict [("abbreviation", .vstr "PLAYER")])
      ∧ pyGetD (createFallbackPlayer "zzz nobody") "team" .vnull
          = .ok (.vdict [("abbreviation", .vstr "NFL"), ("id", .vstr "0")])
      ∧ pyGetD (createFallbackPlayer "zzz nobody") "id" .vnull
          = .ok (.vstr "fallback")) := by
  have hnm : ∀ a, EnvFetched kcEnv a →
      espnCandidateTest (strTrim (strLower "zzz nobody")) a = false := by
    intro a hf
    obtain ⟨tid, data, hok, hmem⟩ := hf
    have hdata : Except.ok kcRosterPayload = Except.ok data := hok
    have hdata2 : data = kcRosterPayload := by
      cases hdata
      rfl
    subst hdata2
    have hros : rosterAthletesOfData kcRosterPayload = [kcMahomesAthlete] := by decide
    rw [hros] at hmem
    simp only [List.mem_singleton] at hmem
    subst hmem
    decide
  exact ⟨hnm, C4_fallback_record_amended kcEnv ⟨[]⟩ "zzz nobody" (cacheSub_empty kcEnv) hnm⟩

/-! ## C9 -/

/-- Counterexample to C9 as stated: the empty display name of the first
roster entry satisfies the bidirectional containment test against the query
(the empty string is a substring of anything), yet the ESPN search skips it
and returns the later entry, so find-by-name is not simply the first
candidate satisfying the containment test. -/
theorem C9_counterexample :
    containsEither "mahomes" "" = true
    ∧ search_player c9Env ⟨[]⟩ "mahomes"
      = .ok (.vdict [("id", .vstr "123"), ("displayName", .vstr "Patrick Mahomes"),
                     ("position", .vdict [("abbreviation", .vstr "QB")]),
                     ("team", .vdict [("id", .vstr "1"), ("abbreviation", .vstr "KC"),
                                      ("displayName", .vstr "Kansas City Chiefs")])],
             ⟨[(.vstr "1", [c9EmptyNameAthlete, kcMahomesAthlete])]⟩,
             [.teams, .roster (.vstr "1")])
    ∧ (match c9EmptyNameAthlete with
       | .vdict d => dlookup d "displayName"
       | _ => none) = some (.vstr "")
    ∧ ("Patrick Mahomes" : String) ≠ "" := by
  refine ⟨by decide, by decide, by decide, by decide⟩

/-- C9 (amended): both providers normalize by lower-casing both sides and
trimming the query and both return the first candidate in dataset iteration
order satisfying their test, never a later or additional match; but the two
tests differ: Sleeper applies the bare containment test to every entry
(an absent full_name reads as the empty string, which matches every query),
while ESPN skips entries that are not truthy dicts or whose display name is
missing or empty, even though an empty name trivially satisfies
containment. -/
theorem C9_first_match_amended :
    (∀ (q : String) (tid tab team tinfo : Val) (l : List Val),
        mkTeamInfo tid tab team = .ok tinfo →
        (∀ a ∈ l, athleteNameOk a = true) →
        scanRoster (strTrim (strLower q)) tid tab team l
          = .ok ((l.find? (espnCandidateTest (strTrim (strLower q)))).map
                  (setTeamOn tinfo)))
    ∧ (∀ (env : FetchEnv) (sst : SleeperState) (name : String)
        (entries : List (String × Val)) (sst' : SleeperState) (log : Log),
        get_all_players env sst = (.vdict entries, sst', log) →
        (∀ p ∈ entries, sleeperEntryWF p = true) →
        get_player_by_name env sst name
          = .ok ((entries.find? (sleeperCandidateTest (strTrim (strLower name)))).map
                  setSleeperIdOn, sst', log)) :=
  ⟨fun _ tid tab team tinfo l ht h => scanRoster_eq_find _ tid tab team tinfo ht l h,
   fun env sst name entries sst' log hga h =>
     get_player_by_name_eq_find env sst name entries sst' log hga h⟩

/-- Witness for C9 on concrete data: the one-athlete roster scan and the full
Sleeper find-by-name both reduce to first-match searches. -/
theorem C9_witness :
    scanRoster (strTrim (strLower "mahomes")) (.vstr "1") (.vstr "KC") kcTeamV
        [kcMahomesAthlete]
      = .ok (([kcMahomesAthlete].find?
          (espnCandidateTest (strTrim (strLower "mahomes")))).map (setTeamOn kcTeamV))
    ∧ get_player_by_name kcEnv ⟨none⟩ "mahomes"
      = .ok ((kcSleeperEntries.find?
          (sleeperCandidateTest (strTrim (strLower "mahomes")))).map setSleeperIdOn,
          ⟨some kcSleeperPayload⟩, [.sleeperAll]) :=
  ⟨C9_first_match_amended.1 "mahomes" (.vstr "1") (.vstr "KC") kcTeamV kcTeamV
      [kcMahomesAthlete] (by decide) (by decide),
   C9_first_match_amended.2 kcEnv ⟨none⟩ "mahomes" kcSleeperEntries
      ⟨some kcSleeperPayload⟩ [.sleeperAll] (by decide) (by decide)⟩

/-! ## C1 -/

theorem dlookup_dset_self (d : List (String × Val)) (k : String) (v : Val) :
    dlookup (dset d k v) k = some v := by
  induction d with
  | nil => simp [dset, dlookup]
  | cons p rest ih =>
    obtain ⟨pk, pv⟩ := p
    by_cases hk : pk = k
    · subst hk
      simp [dset, dlookup]
    · simp [dset, dlookup, hk, ih]

/-- C1: for every non-empty query, when the environment rosters are
well-typed in their position fields, get_complete_player_data returns a
record (never none, never a raise) whose name field is a non-empty string:
the matched athlete display name when the ESPN search matched, and the
original query string otherwise. -/
theorem C1_get_complete_name_nonempty (env : FetchEnv) (hst : HState) (q : String)
    (hq : q ≠ "")
    (inv : CacheSub env hst.espn)
    (hpos : ∀ a, EnvFetched env a → positionFieldOk a = true) :
    ∃ pd st2 log s,
      get_complete_player_data env hst q = .ok (some (.vdict pd), st2, log)
      ∧ dlookup pd "name" = some (.vstr s)
      ∧ s ≠ ""
      ∧ (s = q ∨ ∃ da, EnvFetched env (.vdict da)
            ∧ dlookup da "displayName" = some (.vstr s)) := by
  obtain ⟨⟨r, est', lg1⟩, hsp⟩ := search_player_ok env hst.espn q
  obtain ⟨dr, hdr, hdrne⟩ := search_player_result_shape env hst.espn q r est' lg1 hsp
  subst hdr
  have htr := vdict_truthy dr hdrne
  have hchar := search_player_characterize env hst.espn q (.vdict dr) est' lg1 inv hsp
  have hfacts :
      ∃ s, dlookup dr "displayName" = some (.vstr s) ∧ s ≠ ""
        ∧ (s = q ∨ ∃ da, EnvFetched env (.vdict da)
              ∧ dlookup da "displayName" = some (.vstr s))
        ∧ (∃ dp, (dlookup dr "position").getD (.vdict []) = .vdict dp)
        ∧ (∃ dt, (dlookup dr "team").getD (.vdict []) = .vdict dt) := by
    rcases hchar with hfb | ⟨a, hf, ht, tinfo, hshape, hset⟩
    · have hdr2 : dr = [("id", .vstr "fallback"), ("displayName", .vstr q),
          ("position", .vdict [("abbreviation", .vstr "PLAYER")]),
          ("team", .vdict [("abbreviation", .vstr "NFL"), ("id", .vstr "0")]),
          ("headshot", .vnull)] := by
        have := hfb
        rw [createFallbackPlayer] at this
        exact Val.vdict.inj this
      subst hdr2
      exact ⟨q, rfl, hq, Or.inl rfl,
        ⟨[("abbreviation", .vstr "PLAYER")], rfl⟩,
        ⟨[("abbreviation", .vstr "NFL"), ("id", .vstr "0")], rfl⟩⟩
    · obtain ⟨da, hda, hdane⟩ := espnCandidateTest_shape _ a ht
      subst hda
      have hdr2 : dr = dset da "team" tinfo := by
        rw [setTeamOn] at hset
        exact Val.vdict.inj hset
      subst hdr2
      have hdn : ∃ s, dlookup da "displayName" = some (.vstr s) ∧ s ≠ "" := by
        rw [espnCandidateTest] at ht
        simp only [Bool.and_eq_true] at ht
        obtain ⟨-, ht3⟩ := ht
        cases hlk : dlookup da "displayName" with
        | none =>
          rw [hlk] at ht3
          simp only [Option.getD_none] at ht3
          have hle : strLower "" = "" := by decide
          rw [hle] at ht3
          simp at ht3
        | some v =>
          rw [hlk] at ht3
          simp only [Option.getD_some] at ht3
          cases v with
          | vstr s =>
            refine ⟨s, rfl, ?_⟩
            intro hs
            subst hs
            dsimp only at ht3
            have hle : strLower "" = "" := by decide
            rw [hle] at ht3
            simp at ht3
          | vnull => simp at ht3
          | vbool b => simp at ht3
          | vnum n => simp at ht3
          | vlist l => simp at ht3
          | vdict dd => simp at ht3
      obtain ⟨s, hlk, hsne⟩ := hdn
      have hposf := hpos (.vdict da) hf
      rw [positionFieldOk] at hposf
      refine ⟨s, ?_, hsne, Or.inr ⟨da, hf, hlk⟩, ?_, ?_⟩
      · rw [dlookup_dset_ne da "team" "displayName" tinfo (by decide), hlk]
      · rw [dlookup_dset_ne da "team" "position" tinfo (by decide)]
        cases hlp : dlookup da "position" with
        | none => exact ⟨[], by simp⟩
        | some v =>
          rw [hlp] at hposf
          cases v with
          | vdict dp => exact ⟨dp, by simp⟩
          | vnull => simp at hposf
          | vbool b => simp at hposf
          | vnum n => simp at hposf
          | vstr ss => simp at hposf
          | vlist l => simp at hposf
      · rw [dlookup_dset_self da "team" tinfo]
        obtain ⟨i, ab, dn, hti⟩ := hshape
        exact ⟨[("id", i), ("abbreviation", ab), ("displayName", dn)], by rw [hti]; simp⟩
  obtain ⟨s, hname, hsne, hdisj, ⟨dp, hdp⟩, ⟨dt, hdt⟩⟩ := hfacts
  obtain ⟨⟨spOpt, sst', lg2⟩, hgp⟩ := get_player_by_name_ok env hst.sleeper q
  cases spOpt with
  | none =>
    refine ⟨[("name", .vstr s),
             ("position", (dlookup dp "abbreviation").getD (.vstr "N/A")),
             ("team", (dlookup dt "abbreviation").getD (.vstr "N/A")),
             ("espn_id", (dlookup dr "id").getD .vnull),
             ("espn_data", .vdict dr)],
            ⟨est', sst'⟩, lg1 ++ lg2, s, ?_, by simp [dlookup], hsne, hdisj⟩
    rw [get_complete_player_data, hsp]
    simp only [bind, Except.bind]
    rw [htr]
    simp only [Bool.not_true, Bool.false_eq_true, if_false, pyGetD]
    rw [hname]
    simp only [Option.getD_some]
    rw [hdp, hdt]
    simp only [pyGetD]
    rw [hgp]
    simp only [bind, Except.bind, pure, Except.pure]
  | some sp =>
    obtain ⟨dsp, hdsp⟩ := get_player_by_name_some_shape env hst.sleeper q sp sst' lg2 hgp
    subst hdsp
    refine ⟨dset (dset
             [("name", .vstr s),
              ("position", (dlookup dp "abbreviation").getD (.vstr "N/A")),
              ("team", (dlookup dt "abbreviation").getD (.vstr "N/A")),
              ("espn_id", (dlookup dr "id").getD .vnull),
              ("espn_data", .vdict dr)]
             "sleeper_id"
             (if ((dlookup dsp "sleeper_id").getD .vnull).truthy
              then (dlookup dsp "sleeper_id").getD .vnull
              else (dlookup dsp "player_id").getD .vnull))
             "sleeper_data" (.vdict dsp),
            ⟨est', sst'⟩, lg1 ++ lg2, s, ?_, ?_, hsne, hdisj⟩
    · rw [get_complete_player_data, hsp]
      simp only [bind, Except.bind]
      rw [htr]
      simp only [Bool.not_true, Bool.false_eq_true, if_false, pyGetD]
      rw [hname]
      simp only [Option.getD_some]
      rw [hdp, hdt]
      simp only [pyGetD]
      rw [hgp]
      simp only [bind, Except.bind, pure, Except.pure]
    · rw [dlookup_dset_ne _ "sleeper_data" "name" _ (by decide),
          dlookup_dset_ne _ "sleeper_id" "name" _ (by decide)]
      simp [dlookup]

/-- Witness for C1 in the concrete KC environment. -/
theorem C1_witness :
    ("Mahomes" : String) ≠ ""
    ∧ CacheSub kcEnv ⟨[]⟩
    ∧ (∀ a, EnvFetched kcEnv a → positionFieldOk a = true)
    ∧ (∃ pd st2 log s,
        get_complete_player_data kcEnv ⟨⟨[]⟩, ⟨none⟩⟩ "Mahomes"
          = .ok (some (.vdict pd), st2, log)
        ∧ dlookup pd "name" = some (.vstr s)
        ∧ s ≠ ""
        ∧ (s = "Mahomes" ∨ ∃ da, EnvFetched kcEnv (.vdict da)
              ∧ dlookup da "displayName" = some (.vstr s))) := by
  have hpos : ∀ a, EnvFetched kcEnv a → positionFieldOk a = true := by
    intro a hf
    obtain ⟨tid, data, hok, hmem⟩ := hf
    have hdata : Except.ok kcRosterPayload = Except.ok data := hok
    have hdata2 : data = kcRosterPayload := by
      cases hdata
      rfl
    subst hdata2
    have hros : rosterAthletesOfData kcRosterPayload = [kcMahomesAthlete] := by decide
    rw [hros] at hmem
    simp only [List.mem_singleton] at hmem
    subst hmem
    decide
  exact ⟨by decide, cacheSub_empty kcEnv, hpos,
    C1_get_complete_name_nonempty kcEnv ⟨⟨[]⟩, ⟨none⟩⟩ "Mahomes" (by decide)
      (cacheSub_empty kcEnv) hpos⟩

/-! ## C6 -/

/-- A roster get attempts at most one fetch, of its own key. -/
theorem getTeamRoster_log (env : FetchEnv) (st : ESPNState) (tid : Val)
    (r : Option (List Val) × ESPNState × Log)
    (h : getTeamRoster env st tid = .ok r) :
    r.2.2 = [] ∨ r.2.2 = [.roster tid] := by
  by_cases hh : tid.hashable = true
  · rw [getTeamRoster] at h
    simp only [hh, Bool.not_true, Bool.false_eq_true, if_false] at h
    cases hlk : rosterLookup st.teamRosters tid with
    | some rr =>
      simp only [hlk, Except.ok.injEq] at h
      rw [← h]
      exact Or.inl rfl
    | none =>
      simp only [hlk] at h
      cases hrk : env.roster tid with
      | error e =>
        simp only [hrk, Except.ok.injEq] at h
        rw [← h]
        exact Or.inr rfl
      | ok data =>
        simp only [hrk] at h
        cases hp : parseRosterAthletes data with
        | error e =>
          simp only [hp, Except.ok.injEq] at h
          rw [← h]
          exact Or.inr rfl
        | ok athletes =>
          simp only [hp, Except.ok.injEq] at h
          rw [← h]
          exact Or.inr rfl
  · rw [getTeamRoster] at h
    simp only [Bool.not_eq_true] at hh
    simp [hh] at h

/-- A players get attempts at most one fetch. -/
theorem get_all_players_log (env : FetchEnv) (sst : SleeperState) :
    (get_all_players env sst).2.2 = [] ∨ (get_all_players env sst).2.2 = [.sleeperAll] := by
  rw [get_all_players]
  cases sst.playersCache with
  | some c => exact Or.inl rfl
  | none =>
    cases henv : env.sleeperPlayers with
    | ok p =>
      simp only [henv]
      cases hlen : pyLen p with
      | ok n => simp only [hlen]; exact Or.inr trivial
      | error e => simp only [hlen]; exact Or.inr trivial
    | error e => simp only [henv]; exact Or.inr trivial

/-- The stats lookup never raises and attempts at most one fetch. -/
theorem get_player_stats_ok (env : FetchEnv) (pid season : String) :
    ∃ v lg, get_player_stats env pid season = .ok (v, lg) ∧ lg.Nodup := by
  rw [get_player_stats]
  by_cases hf : pid = "fallback"
  · rw [if_pos hf]
    exact ⟨mockStats, [], rfl, List.nodup_nil⟩
  · rw [if_neg hf]
    cases env.stats pid season with
    | ok data => exact ⟨data, _, rfl, List.nodup_singleton _⟩
    | error e => exact ⟨mockStats, _, rfl, List.nodup_singleton _⟩

/-- The try-block body of the injuries lookup attempts at most one fetch. -/
theorem injuriesBody_log (env : FetchEnv) (sst : SleeperState) (ta pg : Val) :
    (injuriesBody env sst ta pg).2.2 = []
      ∨ (injuriesBody env sst ta pg).2.2 = [.sleeperAll] := by
  rw [injuriesBody]
  by_cases h1 : (!ta.truthy) = true
  · rw [if_pos h1]
    exact Or.inl rfl
  · rw [if_neg h1]
    cases valUpper ta with
    | error e => exact Or.inl rfl
    | ok tas =>
      dsimp only
      by_cases h2 : tas = "N/A"
      · rw [if_pos h2]
        exact Or.inl rfl
      · rw [if_neg h2]
        by_cases h3 : (!pg.truthy) = true
        · rw [if_pos h3]
          exact Or.inl rfl
        · rw [if_neg h3]
          cases hga : get_all_players env sst with
          | mk players rest =>
            obtain ⟨st1, lg⟩ := rest
            have hlg : lg = [] ∨ lg = [.sleeperAll] := by
              have := get_all_players_log env sst
              rw [hga] at this
              exact this
            dsimp only
            by_cases h4 : (!players.truthy) = true
            · rw [if_pos h4]
              exact hlg
            · rw [if_neg h4]
              cases valUpper pg with
              | error e => exact hlg
              | ok pgs =>
                cases players with
                | vdict entries => exact hlg
                | vnull => exact hlg
                | vbool b => exact hlg
                | vnum n => exact hlg
                | vstr s => exact hlg
                | vlist l => exact hlg

/-- The injuries lookup never raises and attempts at most one fetch. -/
theorem get_team_injuries_ok (env : FetchEnv) (sst : SleeperState) (ta pg : Val) :
    ∃ l sst' lg, get_team_injuries env sst ta pg = .ok (l, sst', lg) ∧ lg.Nodup := by
  rw [get_team_injuries]
  cases hb : injuriesBody env sst ta pg with
  | mk exc rest =>
    obtain ⟨st1, lg⟩ := rest
    have hlg : lg = [] ∨ lg = [.sleeperAll] := by
      have := injuriesBody_log env sst ta pg
      rw [hb] at this
      exact this
    have hnd : lg.Nodup := by
      rcases hlg with h | h
      · rw [h]; exact List.nodup_nil
      · rw [h]; exact List.nodup_singleton _
    cases exc with
    | ok l => exact ⟨l, st1, lg, rfl, hnd⟩
    | error e => exact ⟨[], st1, lg, rfl, hnd⟩

/-- A teams fetch is attempted exactly once per _get_all_teams call. -/
theorem getAllTeams_log (env : FetchEnv) : (getAllTeams env).2 = [.teams] := by
  rw [getAllTeams]
  cases henv : env.teams with
  | error e => rfl
  | ok data =>
    cases hp : parseTeams data with
    | ok ts => simp only [hp]
    | error e => simp only [hp]

/-- The roster fetches of one search loop form a map of a sublist of the
team-id list: one fetch at most per processed team entry. -/
theorem searchLoop_log (env : FetchEnv) (q : String) (ts : List Val) :
    ∀ (st : ESPNState) (log0 : Log) (res : Except PyErr (Option Val))
      (st' : ESPNState) (log' : Log),
      searchLoop env q ts st log0 = (res, st', log') →
      ∃ ids, List.Sublist ids (ts.map teamIdOf)
        ∧ log' = log0 ++ ids.map FetchKey.roster := by
  induction ts with
  | nil =>
    intro st log0 res st' log' h
    rw [searchLoop] at h
    simp only [Prod.mk.injEq] at h
    exact ⟨[], List.nil_sublist _, by rw [← h.2.2]; simp⟩
  | cons team rest ih =>
    intro st log0 res st' log' h
    rw [searchLoop] at h
    cases hid : pyGetD team "id" .vnull with
    | error e =>
      simp only [hid, Prod.mk.injEq] at h
      exact ⟨[], List.nil_sublist _, by rw [← h.2.2]; simp⟩
    | ok team_id =>
      have hteq : team_id = teamIdOf team := by
        cases team with
        | vdict d =>
          simp only [pyGetD, Except.ok.injEq] at hid
          rw [teamIdOf, ← hid]
        | vnull => simp [pyGetD] at hid
        | vbool b => simp [pyGetD] at hid
        | vnum n => simp [pyGetD] at hid
        | vstr s => simp [pyGetD] at hid
        | vlist l => simp [pyGetD] at hid
      simp only [hid] at h
      cases hab : pyGetD team "abbreviation" (.vstr "UNK") with
      | error e =>
        simp only [hab, Prod.mk.injEq] at h
        exact ⟨[], List.nil_sublist _, by rw [← h.2.2]; simp⟩
      | ok team_abbr =>
        simp only [hab] at h
        cases hrt : getTeamRoster env st team_id with
        | error e =>
          simp only [hrt, Prod.mk.injEq] at h
          exact ⟨[], List.nil_sublist _, by rw [← h.2.2]; simp⟩
        | ok rr =>
          obtain ⟨ropt, st1, l1⟩ := rr
          have hl1 : l1 = [] ∨ l1 = [.roster team_id] := getTeamRoster_log env st team_id _ hrt
          simp only [hrt] at h
          have hcont : ∀ res2 st2 log2,
              searchLoop env q rest st1 (log0 ++ l1) = (res2, st2, log2) →
              res = res2 → st' = st2 → log' = log2 →
              ∃ ids, List.Sublist ids ((team :: rest).map teamIdOf)
                ∧ log' = log0 ++ ids.map FetchKey.roster := by
            intro res2 st2 log2 hrec hres hst hlog
            obtain ⟨ids', hsub, hlog'⟩ := ih st1 (log0 ++ l1) res2 st2 log2 hrec
            rcases hl1 with he | he
            · refine ⟨ids', ?_, ?_⟩
              · exact List.Sublist.cons _ hsub
              · rw [hlog, hlog', he]
                simp
            · refine ⟨teamIdOf team :: ids', ?_, ?_⟩
              · exact List.Sublist.cons₂ _ hsub
              · rw [hlog, hlog', he, hteq]
                simp
          have hterm : log' = log0 ++ l1 →
              ∃ ids, List.Sublist ids ((team :: rest).map teamIdOf)
                ∧ log' = log0 ++ ids.map FetchKey.roster := by
            intro hlog
            rcases hl1 with he | he
            · exact ⟨[], List.nil_sublist _, by rw [hlog, he]; simp⟩
            · refine ⟨[teamIdOf team], ?_, by rw [hlog, he, hteq]; simp⟩
              exact List.Sublist.cons₂ _ (List.nil_sublist _)
          cases ropt with
          | none => exact hcont res st' log' h rfl rfl rfl
          | some roster =>
            simp only at h
            by_cases hemp : roster.isEmpty = true
            case pos =>
              rw [if_pos hemp] at h
              exact hcont res st' log' h rfl rfl rfl
            case neg =>
              rw [if_neg hemp] at h
              cases hscan : scanRoster q team_id team_abbr team roster with
              | error e =>
                simp only [hscan, Prod.mk.injEq] at h
                exact hterm h.2.2.symm
              | ok sopt =>
                cases sopt with
                | none =>
                  simp only [hscan] at h
                  exact hcont res st' log' h rfl rfl rfl
                | some athlete =>
                  simp only [hscan, Prod.mk.injEq] at h
                  exact hterm h.2.2.symm

/-- When the fetched team list carries pairwise distinct team ids, one
search fetches each resource at most once. -/
theorem search_player_log_nodup (env : FetchEnv) (st : ESPNState) (q : String)
    (r : Val) (st' : ESPNState) (log : Log)
    (hids : ((getAllTeams env).1.map teamIdOf).Nodup)
    (h : search_player env st q = .ok (r, st', log)) : log.Nodup := by
  rw [search_player] at h
  cases hteams : getAllTeams env with
  | mk teams log0 =>
    rw [hteams] at h
    dsimp only at h
    have hids2 : (teams.map teamIdOf).Nodup := by
      rw [hteams] at hids
      exact hids
    have hlog0 : log0 = [.teams] := by
      have := getAllTeams_log env
      rw [hteams] at this
      exact this
    have hfin : ∀ lg', (∃ ids, List.Sublist ids (teams.map teamIdOf)
        ∧ lg' = log0 ++ ids.map FetchKey.roster) → lg'.Nodup := by
      intro lg' ⟨ids, hsub, hlg⟩
      rw [hlg, hlog0]
      have hnd : ids.Nodup := List.Nodup.sublist hsub hids2
      have hmap : (ids.map FetchKey.roster).Nodup :=
        List.Nodup.map (fun a b hab => FetchKey.roster.inj hab) hnd
      rw [List.singleton_append, List.nodup_cons]
      refine ⟨?_, hmap⟩
      intro hmem
      obtain ⟨b, _, hb⟩ := List.mem_map.mp hmem
      exact FetchKey.noConfusion hb
    by_cases hemp : teams.isEmpty = true
    case pos =>
      rw [if_pos hemp] at h
      simp only [Except.ok.injEq, Prod.mk.injEq] at h
      rw [← h.2.2, hlog0]
      exact List.nodup_singleton _
    case neg =>
      rw [if_neg hemp] at h
      cases hloop : searchLoop env (strTrim (strLower q)) teams st log0 with
      | mk res rest2 =>
        obtain ⟨st1, log1⟩ := rest2
        rw [hloop] at h
        have hsl := searchLoop_log env (strTrim (strLower q)) teams st log0 res st1 log1 hloop
        cases res with
        | error e =>
          simp only [Except.ok.injEq, Prod.mk.injEq] at h
          rw [← h.2.2]
          exact hfin log1 hsl
        | ok sopt =>
          cases sopt with
          | none =>
            simp only [Except.ok.injEq, Prod.mk.injEq] at h
            rw [← h.2.2]
            exact hfin log1 hsl
          | some athlete =>
            simp only [Except.ok.injEq, Prod.mk.injEq] at h
            rw [← h.2.2]
            exact hfin log1 hsl

/-- A roster get never raises once the key is hashable. -/
theorem getTeamRoster_ok (env : FetchEnv) (st : ESPNState) (tid : Val)
    (hh : tid.hashable = true) : ∃ r, getTeamRoster env st tid = .ok r := by
  rw [getTeamRoster]
  simp only [hh, Bool.not_true, Bool.false_eq_true, if_false]
  cases hlk : rosterLookup st.teamRosters tid with
  | some r => simp only [hlk]; exact ⟨_, rfl⟩
  | none =>
    simp only [hlk]
    cases hrk : env.roster tid with
    | error e => simp only [hrk]; exact ⟨_, rfl⟩
    | ok data =>
      simp only [hrk]
      cases hp : parseRosterAthletes data with
      | error e => simp only [hp]; exact ⟨_, rfl⟩
      | ok athletes => simp only [hp]; exact ⟨_, rfl⟩

/-- Counterexample to C6 as stated: when the fetched team list repeats a team
id and that roster fetch fails, search_player fetches the same failed roster
resource twice within one call (the failure is not cached), so a failed fetch
is retried within the same call. -/
theorem C6_counterexample :
    search_player dupEnv ⟨[]⟩ "patrick"
      = .ok (createFallbackPlayer "patrick", ⟨[]⟩,
             [.teams, .roster (.vstr "1"), .roster (.vstr "1")])
    ∧ ¬ ([FetchKey.teams, .roster (.vstr "1"), .roster (.vstr "1")] : Log).Nodup := by
  refine ⟨by decide, by decide⟩

/-- C6 (amended): every adapter operation converts any upstream fetch
failure into a no-data result instead of raising, and no operation fetches
the same resource twice within one call — except ESPN search, which fetches
each resource at most once provided the fetched team list carries pairwise
distinct team ids (a failed roster fetch is not cached, so a duplicated team
id re-attempts it). -/
theorem C6_adapter_failure_policy_amended (env : FetchEnv) :
    (∀ (st : ESPNState) (q : String), ∃ r, search_player env st q = .ok r)
    ∧ (∀ pid season, ∃ v lg, get_player_stats env pid season = .ok (v, lg) ∧ lg.Nodup)
    ∧ (∀ (st : ESPNState) (tid : Val), tid.hashable = true →
        ∃ r, getTeamRoster env st tid = .ok r ∧ r.2.2.Nodup)
    ∧ (∀ (sst : SleeperState), ∃ v sst' lg,
        get_all_players env sst = (v, sst', lg) ∧ lg.Nodup)
    ∧ (∀ (sst : SleeperState) (ta pg : Val), ∃ l sst' lg,
        get_team_injuries env sst ta pg = .ok (l, sst', lg) ∧ lg.Nodup)
    ∧ (∀ (e : PyErr) (st : ESPNState) (tid : Val), env.roster tid = .error e →
        tid.hashable = true → rosterLookup st.teamRosters tid = none →
        getTeamRoster env st tid = .ok (none, st, [.roster tid]))
    ∧ (∀ (e : PyErr) (sst : SleeperState), env.sleeperPlayers = .error e →
        sst.playersCache = none →
        get_all_players env sst = (.vdict [], sst, [.sleeperAll]))
    ∧ (∀ (e : PyErr) (pid season : String), env.stats pid season = .error e →
        get_player_stats env pid season = .ok (mockStats, [.stats pid season])
          ∨ pid = "fallback")
    ∧ (((getAllTeams env).1.map teamIdOf).Nodup →
        ∀ (st : ESPNState) (q : String) (r : Val) (st' : ESPNState) (lg : Log),
          search_player env st q = .ok (r, st', lg) → lg.Nodup) := by
  refine ⟨?_, ?_, ?_, ?_, ?_, ?_, ?_, ?_, ?_⟩
  · intro st q
    exact search_player_ok env st q
  · intro pid season
    exact get_player_stats_ok env pid season
  · intro st tid hh
    obtain ⟨r, hr⟩ := getTeamRoster_ok env st tid hh
    refine ⟨r, hr, ?_⟩
    rcases getTeamRoster_log env st tid r hr with h | h
    · rw [h]; exact List.nodup_nil
    · rw [h]; exact List.nodup_singleton _
  · intro sst
    refine ⟨(get_all_players env sst).1, (get_all_players env sst).2.1,
      (get_all_players env sst).2.2, rfl, ?_⟩
    rcases get_all_players_log env sst with h | h
    · rw [h]; exact List.nodup_nil
    · rw [h]; exact List.nodup_singleton _
  · intro sst ta pg
    exact get_team_injuries_ok env sst ta pg
  · intro e st tid hfail hh hmiss
    rw [getTeamRoster]
    simp [hh, hmiss, hfail]
  · intro e sst hfail hmiss
    rw [get_all_players, hmiss, hfail]
  · intro e pid season hfail
    by_cases hf : pid = "fallback"
    · exact Or.inr hf
    · refine Or.inl ?_
      rw [get_player_stats]
      simp [hf, hfail]
  · intro hids st q r st' lg h
    exact search_player_log_nodup env st q r st' lg hids h

/-- Witness for C6, instantiating every clause at the all-failures
environment and concrete arguments. -/
theorem C6_witness :
    (∃ r, search_player failEnvC7 ⟨[]⟩ "patrick" = .ok r)
    ∧ (∃ v lg, get_player_stats failEnvC7 "123" "2024" = .ok (v, lg) ∧ lg.Nodup)
    ∧ (∃ r, getTeamRoster failEnvC7 ⟨[]⟩ (.vstr "1") = .ok r ∧ r.2.2.Nodup)
    ∧ (∃ v sst' lg, get_all_players failEnvC7 ⟨none⟩ = (v, sst', lg) ∧ lg.Nodup)
    ∧ (∃ l sst' lg, get_team_injuries failEnvC7 ⟨none⟩ (.vstr "KC") (.vstr "QB")
        = .ok (l, sst', lg) ∧ lg.Nodup)
    ∧ getTeamRoster failEnvC7 ⟨[]⟩ (.vstr "1") = .ok (none, ⟨[]⟩, [.roster (.vstr "1")])
    ∧ get_all_players failEnvC7 ⟨none⟩ = (.vdict [], ⟨none⟩, [.sleeperAll])
    ∧ (get_player_stats failEnvC7 "123" "2024" = .ok (mockStats, [.stats "123" "2024"])
        ∨ ("123" : String) = "fallback")
    ∧ (∀ r st' lg, search_player failEnvC7 ⟨[]⟩ "patrick" = .ok (r, st', lg) → lg.Nodup) := by
  have h := C6_adapter_failure_policy_amended failEnvC7
  refine ⟨h.1 ⟨[]⟩ "patrick", h.2.1 "123" "2024",
    h.2.2.1 ⟨[]⟩ (.vstr "1") (by decide), h.2.2.2.1 ⟨none⟩,
    h.2.2.2.2.1 ⟨none⟩ (.vstr "KC") (.vstr "QB"),
    h.2.2.2.2.2.1 .fetchError ⟨[]⟩ (.vstr "1") rfl (by decide) rfl,
    h.2.2.2.2.2.2.1 .fetchError ⟨none⟩ rfl rfl,
    h.2.2.2.2.2.2.2.1 .fetchError "123" "2024" rfl,
    fun r st' lg hr => h.2.2.2.2.2.2.2.2 (by decide) ⟨[]⟩ "patrick" r st' lg hr⟩

/-- Witness for C10 at the concrete KC environment: the not-found branch of
the analyze route is not taken, and the aggregation result at a concrete
input is not the none record. -/
theorem C10_witness :
    analyzeNotFoundBranch kcEnv ⟨[]⟩ "Mahomes" = false
    ∧ (∀ o st2 log, get_complete_player_data kcEnv ⟨⟨[]⟩, ⟨none⟩⟩ "Mahomes"
        = .ok (o, st2, log) → o ≠ none) :=
  ⟨(C10_search_total_notfound_unreachable kcEnv ⟨[]⟩ ⟨⟨[]⟩, ⟨none⟩⟩ "Mahomes").2.1,
   fun o st2 log h =>
     (C10_search_total_notfound_unreachable kcEnv ⟨[]⟩ ⟨⟨[]⟩, ⟨none⟩⟩ "Mahomes").2.2
       o st2 log h⟩

end FootballAI
